import Mathlib

/-!
# Verification of the `survey` question sequencer (`src/survey.go`)

Shallow embedding of the Go package `survey`: the data model (`Question`,
the `Prompt` interface), the sequencer `Ask` and the single-question entry
point `AskOne`.

Modelling decisions, each keyed to the source:

* Go interface methods and function fields (`Prompt()`, `Error(err)`,
  `Cleanup(v)`, `Validate`, `Convert`) are function values whose bodies are
  external to this package and may close over mutable state.  Each is
  modelled as a call-indexed oracle: the `Nat` argument is the number of
  prior calls made to that operation on that `Question` during the current
  `Ask` invocation (`Cleanup` is called at most once per question, so it
  needs no index).  A pure Go function corresponds to an oracle that
  ignores its index.
* Go `(value, error)` returns become `Except ε α`; a Go `error` result that
  may be `nil` becomes `Option ε` (`none` = `nil`).
* `core.WriteAnswer(t, name, value)` is an external collaborator
  (`github.com/AlecAivazis/survey/core`, not part of this repository's
  source); it is passed in as an abstract state transformer
  `WriteAnswer : τ → String → α → Except ε τ` on the container.
* The `t interface{}` argument of `Ask` is `Option τ`; `none` models the
  Go `nil` interface value checked at the top of `Ask`.
* The two `for` loops in `Ask` (conversion retry, validation retry) need
  not terminate, so they take a fuel argument counting permitted retry
  iterations; exhausting fuel yields the distinguished `fuelOut` outcome,
  and divergence of the Go code corresponds to `fuelOut` for every fuel.
* Every external call is recorded in an event trace so that claims about
  which calls happen, in what order, with what arguments, are statable.
* In the Go source the `err` checked right after `q.Prompt.Cleanup(ans)`
  (line 104) is the outer `err` from line 53, which is `nil` there (the
  loops shadow it), so `Cleanup`'s return value is discarded; the embedding
  records it in the trace event and otherwise drops it.
-/

deriving instance DecidableEq for Except

namespace Survey

variable {α ε τ : Type}

/-- The `Prompt` interface of `survey.go` (lines 25–29): three operations.
`prompt i` is the result of the `i`-th `Prompt()` call on this object,
`error i e` the result of the `i`-th `Error(e)` call, `cleanup v` the
result of `Cleanup(v)`. -/
structure PromptI (α ε : Type) where
  prompt : Nat → Except ε α
  error : Nat → ε → Option ε
  cleanup : α → Option ε

/-- The `Question` struct of `survey.go` (lines 16–21).  `Validate` and
`Convert` are `nil`-able function fields (`none` = `nil`), call-indexed as
explained in the file header. -/
structure Question (α ε : Type) where
  Name : String
  Prompt : PromptI α ε
  Validate : Option (Nat → α → Option ε)
  Convert : Option (Nat → α → Except ε α)

/-- One recorded external call made by `Ask`, tagged with the index `qi` of
the question (position in the question list) being processed. -/
inductive Event (α ε : Type) where
  | promptCall (qi : Nat) (result : Except ε α)
  | errorCall (qi : Nat) (arg : ε) (result : Option ε)
  | convertCall (qi : Nat) (arg : α) (result : Except ε α)
  | validateCall (qi : Nat) (arg : α) (result : Option ε)
  | cleanupCall (qi : Nat) (arg : α) (result : Option ε)
  | bindCall (qi : Nat) (name : String) (value : α) (result : Option ε)
deriving DecidableEq, Repr

/-- Outcome of one of the two retry loops inside `Ask`.  `ok` returns the
current raw answer `ans`, the working converted answer `convertedAns`, and
the updated `Prompt()`/`Error()` call counters. -/
inductive LoopRes (α ε : Type) where
  | ok (ans convertedAns : α) (pi ei : Nat) (tr : List (Event α ε))
  | abort (e : ε) (tr : List (Event α ε))
  | fuelOut (tr : List (Event α ε))
deriving DecidableEq, Repr

/-- Prepend already-recorded events to a loop outcome's trace. -/
def LoopRes.prepend (es : List (Event α ε)) : LoopRes α ε → LoopRes α ε
  | .ok a c pi ei tr => .ok a c pi ei (es ++ tr)
  | .abort e tr => .abort e (es ++ tr)
  | .fuelOut tr => .fuelOut (es ++ tr)

/-- The conversion retry loop of `Ask` (`survey.go` lines 61–79):
`for convertedAns, invalid = q.Convert(ans); invalid != nil; convertedAns,
invalid = q.Convert(ans) { Error(invalid); ans = Prompt() }`, each
conversion applied to the most recent raw value.  `pi`, `ei`, `ci` are the
call counters for `Prompt()`, `Error()` and `Convert`; `fuel` bounds the
number of retry iterations. -/
def convertLoop (qi : Nat) (p : PromptI α ε) (conv : Nat → α → Except ε α)
    (fuel : Nat) (pi ei ci : Nat) (ans : α) : LoopRes α ε :=
  match conv ci ans with
  | .ok cAns => .ok ans cAns pi ei [.convertCall qi ans (.ok cAns)]
  | .error invalid =>
    match fuel with
    | 0 => .fuelOut [.convertCall qi ans (.error invalid)]
    | fuel + 1 =>
      match p.error ei invalid with
      | some e => .abort e [.convertCall qi ans (.error invalid), .errorCall qi invalid (some e)]
      | none =>
        match p.prompt pi with
        | .error e =>
          .abort e [.convertCall qi ans (.error invalid), .errorCall qi invalid none,
            .promptCall qi (.error e)]
        | .ok ans2 =>
          (convertLoop qi p conv fuel (pi + 1) (ei + 1) (ci + 1) ans2).prepend
            [.convertCall qi ans (.error invalid), .errorCall qi invalid none,
              .promptCall qi (.ok ans2)]

/-- The validation retry loop of `Ask` (`survey.go` lines 82–98):
`for invalid := q.Validate(convertedAns); invalid != nil; invalid =
q.Validate(convertedAns) { Error(invalid); ans = Prompt() }`.  Note that
the loop re-validates the same `convertedAns` on every iteration; the
newly prompted raw value only updates `ans`. -/
def validateLoop (qi : Nat) (p : PromptI α ε) (val : Nat → α → Option ε)
    (convertedAns : α) (fuel : Nat) (pi ei vi : Nat) (ans : α) : LoopRes α ε :=
  match val vi convertedAns with
  | none => .ok ans convertedAns pi ei [.validateCall qi convertedAns none]
  | some invalid =>
    match fuel with
    | 0 => .fuelOut [.validateCall qi convertedAns (some invalid)]
    | fuel + 1 =>
      match p.error ei invalid with
      | some e =>
        .abort e [.validateCall qi convertedAns (some invalid), .errorCall qi invalid (some e)]
      | none =>
        match p.prompt pi with
        | .error e =>
          .abort e [.validateCall qi convertedAns (some invalid), .errorCall qi invalid none,
            .promptCall qi (.error e)]
        | .ok ans2 =>
          (validateLoop qi p val convertedAns fuel (pi + 1) (ei + 1) (vi + 1) ans2).prepend
            [.validateCall qi convertedAns (some invalid), .errorCall qi invalid none,
              .promptCall qi (.ok ans2)]

/-- Outcome of processing a single question (one iteration of the
`for _, q := range qs` loop in `Ask`). -/
inductive StepRes (τ α ε : Type) where
  | ok (t : τ) (tr : List (Event α ε))
  | abort (e : ε) (tr : List (Event α ε))
  | fuelOut (tr : List (Event α ε))
deriving DecidableEq, Repr

/-- The `if q.Convert != nil` block of `Ask` (`survey.go` lines 61–79):
run the conversion retry loop when a converter is set; otherwise the
working converted answer is the raw value (`convertedAns := ans`, line 54)
and the `Prompt()`/`Error()` counters stand at 1 and 0 (only the initial
prompt has happened). -/
def convertPhase (qi : Nat) (p : PromptI α ε) (c : Option (Nat → α → Except ε α))
    (fuel : Nat) (ans : α) : LoopRes α ε :=
  match c with
  | none => .ok ans ans 1 0 []
  | some conv => convertLoop qi p conv fuel 1 0 0 ans

/-- The `if q.Validate != nil` block of `Ask` (`survey.go` lines 82–98):
run the validation retry loop when a validator is set; otherwise the
working values and counters pass through unchanged. -/
def validatePhase (qi : Nat) (p : PromptI α ε) (v : Option (Nat → α → Option ε))
    (fuel : Nat) (cAns : α) (pi ei : Nat) (ans : α) : LoopRes α ε :=
  match v with
  | none => .ok ans cAns pi ei []
  | some val => validateLoop qi p val cAns fuel pi ei 0 ans

/-- The body of the question loop in `Ask` (`survey.go` lines 51–115):
initial `Prompt()` (lines 53–58), conversion phase (lines 54 and 61–79),
validation phase (lines 82–98), `Cleanup(ans)` with its result discarded
(lines 100–107; the `err` checked at line 104 is the outer one,
necessarily `nil` there), then `core.WriteAnswer(t, q.Name, convertedAns)`
(lines 110–114). -/
def askQ (WriteAnswer : τ → String → α → Except ε τ) (fuel : Nat) (qi : Nat)
    (q : Question α ε) (t : τ) : StepRes τ α ε :=
  match q.Prompt.prompt 0 with
  | .error e => .abort e [.promptCall qi (.error e)]
  | .ok ans =>
    let ev0 : Event α ε := .promptCall qi (.ok ans)
    match convertPhase qi q.Prompt q.Convert fuel ans with
    | .abort e trc => .abort e (ev0 :: trc)
    | .fuelOut trc => .fuelOut (ev0 :: trc)
    | .ok ans1 cAns pi ei trc =>
      match validatePhase qi q.Prompt q.Validate fuel cAns pi ei ans1 with
      | .abort e trv => .abort e (ev0 :: (trc ++ trv))
      | .fuelOut trv => .fuelOut (ev0 :: (trc ++ trv))
      | .ok ans2 cAns2 _ _ trv =>
        let cev : Event α ε := .cleanupCall qi ans2 (q.Prompt.cleanup ans2)
        match WriteAnswer t q.Name cAns2 with
        | .error e =>
          .abort e (ev0 :: (trc ++ trv ++ [cev, .bindCall qi q.Name cAns2 (some e)]))
        | .ok t2 =>
          .ok t2 (ev0 :: (trc ++ trv ++ [cev, .bindCall qi q.Name cAns2 none]))

/-- The error returned by `Ask`: either the configuration error built by
`errors.New` at line 47 of `survey.go`, or an error value coming unchanged
from a `Prompt()`, `Error()` or `WriteAnswer` call. -/
inductive AskError (ε : Type) where
  | config (msg : String)
  | user (e : ε)
deriving DecidableEq, Repr

/-- Result of `Ask`: `ok` carries the final container and the trace;
`err` carries the returned error, the container at the time of failure
(`none` when `Ask` was called with a `nil` container) and the trace;
`fuelOut` reports retry-fuel exhaustion (modelling divergence). -/
inductive AskRes (τ α ε : Type) where
  | ok (t : τ) (tr : List (Event α ε))
  | err (e : AskError ε) (t : Option τ) (tr : List (Event α ε))
  | fuelOut (t : τ) (tr : List (Event α ε))
deriving DecidableEq, Repr

/-- Prepend already-recorded events to an `Ask` outcome's trace. -/
def AskRes.prepend (es : List (Event α ε)) : AskRes τ α ε → AskRes τ α ε
  | .ok t tr => .ok t (es ++ tr)
  | .err e topt tr => .err e topt (es ++ tr)
  | .fuelOut t tr => .fuelOut t (es ++ tr)

/-- The `for _, q := range qs` loop of `Ask` (`survey.go` lines 51–116),
with `qi` the index of the first question of `qs` in the original list. -/
def askList (WriteAnswer : τ → String → α → Except ε τ) (fuel : Nat) :
    List (Question α ε) → Nat → τ → AskRes τ α ε
  | [], _, t => .ok t []
  | q :: rest, qi, t =>
    match askQ WriteAnswer fuel qi q t with
    | .abort e tr => .err (.user e) (some t) tr
    | .fuelOut tr => .fuelOut t tr
    | .ok t2 tr => (askList WriteAnswer fuel rest (qi + 1) t2).prepend tr

/-- `Ask` (`survey.go` lines 42–119): fails fast with the configuration
error if the container reference is `nil` (lines 45–48), otherwise runs
the question loop. -/
def Ask (WriteAnswer : τ → String → α → Except ε τ) (fuel : Nat)
    (qs : List (Question α ε)) (t : Option τ) : AskRes τ α ε :=
  match t with
  | none => .err (.config "cannot call Ask() with a nil reference to record the answers") none []
  | some t0 => askList WriteAnswer fuel qs 0 t0

/-- `AskOne` (`survey.go` lines 32–39): builds the one-element question
list `[{Prompt: p, Validate: v, Convert: c}]` — leaving `Name` at its zero
value `""` — and calls `Ask`; the Go `if err != nil { return err };
return nil` returns `Ask`'s result unchanged, so here it is the identity. -/
def AskOne (WriteAnswer : τ → String → α → Except ε τ) (fuel : Nat) (p : PromptI α ε)
    (t : Option τ) (v : Option (Nat → α → Option ε)) (c : Option (Nat → α → Except ε α)) :
    AskRes τ α ε :=
  Ask WriteAnswer fuel [{ Name := "", Prompt := p, Validate := v, Convert := c }] t

/-! ## Trace and result observers -/

/-- Question index an event is tagged with. -/
def Event.qIdx : Event α ε → Nat
  | .promptCall qi _ => qi
  | .errorCall qi _ _ => qi
  | .convertCall qi _ _ => qi
  | .validateCall qi _ _ => qi
  | .cleanupCall qi _ _ => qi
  | .bindCall qi _ _ _ => qi

/-- Is this event a `Prompt()` call? -/
def Event.isPromptCall : Event α ε → Bool
  | .promptCall _ _ => true
  | _ => false

/-- Is this event an `Error()` call? -/
def Event.isErrorCall : Event α ε → Bool
  | .errorCall _ _ _ => true
  | _ => false

/-- Number of `Prompt()` calls recorded in a trace. -/
def promptCount (tr : List (Event α ε)) : Nat :=
  (tr.filter Event.isPromptCall).length

/-- Number of `Error()` calls recorded in a trace. -/
def errorCount (tr : List (Event α ε)) : Nat :=
  (tr.filter Event.isErrorCall).length

/-- The raw values that `Convert` was applied to, in call order. -/
def convertArgs (tr : List (Event α ε)) : List α :=
  tr.filterMap fun e =>
    match e with
    | .convertCall _ a _ => some a
    | _ => none

/-- The values that `Validate` was applied to, in call order. -/
def validateArgs (tr : List (Event α ε)) : List α :=
  tr.filterMap fun e =>
    match e with
    | .validateCall _ a _ => some a
    | _ => none

/-- The `Cleanup` calls recorded in a trace: argument and returned error. -/
def cleanupCalls (tr : List (Event α ε)) : List (α × Option ε) :=
  tr.filterMap fun e =>
    match e with
    | .cleanupCall _ a r => some (a, r)
    | _ => none

/-- The `(name, value)` pairs successfully bound by `WriteAnswer`, in
bind order. -/
def traceBinds (tr : List (Event α ε)) : List (String × α) :=
  tr.filterMap fun e =>
    match e with
    | .bindCall _ n v none => some (n, v)
    | _ => none

/-- The names passed to `WriteAnswer` (successful or not), in call order. -/
def bindNames (tr : List (Event α ε)) : List String :=
  tr.filterMap fun e =>
    match e with
    | .bindCall _ n _ _ => some n
    | _ => none

/-- The values passed to `WriteAnswer` (successful or not), in call
order. -/
def bindValues (tr : List (Event α ε)) : List α :=
  tr.filterMap fun e =>
    match e with
    | .bindCall _ _ v _ => some v
    | _ => none

/-- The last raw value successfully returned by `Prompt()` in a trace. -/
def lastRawVal (tr : List (Event α ε)) : Option α :=
  (tr.filterMap fun e =>
    match e with
    | .promptCall _ (Except.ok a) => some a
    | _ => none).getLast?

/-- Trace of a single-question outcome. -/
def StepRes.trace : StepRes τ α ε → List (Event α ε)
  | .ok _ tr => tr
  | .abort _ tr => tr
  | .fuelOut tr => tr

/-- Trace of an `Ask` outcome. -/
def AskRes.trace : AskRes τ α ε → List (Event α ε)
  | .ok _ tr => tr
  | .err _ _ tr => tr
  | .fuelOut _ tr => tr

/-- Did `Ask` return without error? -/
def AskRes.isOk : AskRes τ α ε → Bool
  | .ok _ _ => true
  | _ => false

/-- Did `Ask` run out of retry fuel (the fuel-indexed image of a run of
the Go code that is still inside a retry loop)? -/
def AskRes.isFuelOut : AskRes τ α ε → Bool
  | .fuelOut _ _ => true
  | _ => false

/-- Is this event a `Convert` call? -/
def Event.isConvertCall : Event α ε → Bool
  | .convertCall _ _ _ => true
  | _ => false

/-- Is this event a `Validate` call? -/
def Event.isValidateCall : Event α ε → Bool
  | .validateCall _ _ _ => true
  | _ => false

/-- Trace of a retry-loop outcome. -/
def LoopRes.trace : LoopRes α ε → List (Event α ε)
  | .ok _ _ _ _ tr => tr
  | .abort _ tr => tr
  | .fuelOut tr => tr

/-- Semantics of a `nil`-able `Convert` field, as used at lines 54 and
61–65 of `survey.go`: a `nil` converter leaves the raw value unchanged
(`convertedAns := ans`), a non-`nil` one is applied. -/
def convApply (c : Option (Nat → α → Except ε α)) (i : Nat) (a : α) : Except ε α :=
  match c with
  | none => .ok a
  | some f => f i a

/-- Semantics of a `nil`-able `Validate` field: a `nil` validator accepts
every value (the loop at line 82 is skipped). -/
def valApply (v : Option (Nat → α → Option ε)) (i : Nat) (a : α) : Option ε :=
  match v with
  | none => none
  | some f => f i a

/-- Every external operation of a question succeeds at its first attempt:
the first `Prompt()` returns a raw value, the first conversion (if any)
succeeds on it, the first validation (if any) accepts the converted value,
and `Cleanup` returns no error. -/
def firstTryOK (q : Question α ε) : Prop :=
  ∃ a ca, q.Prompt.prompt 0 = .ok a ∧ convApply q.Convert 0 a = .ok ca ∧
    valApply q.Validate 0 ca = none ∧ ∀ v, q.Prompt.cleanup v = none

/-- The (possibly converted) first-attempt answer of a question: the first
raw value run through the converter (if any); `default` when either call
fails (unused in that case). -/
def theAnswer [Inhabited α] (q : Question α ε) : α :=
  match q.Prompt.prompt 0 with
  | .error _ => default
  | .ok a =>
    match convApply q.Convert 0 a with
    | .error _ => default
    | .ok ca => ca

/-- Replace a question's `Cleanup` implementation, leaving everything else
unchanged. -/
def setCleanup (c : α → Option ε) (q : Question α ε) : Question α ε :=
  { q with Prompt := { q.Prompt with cleanup := c } }

/-- Erase the recorded result of `Cleanup` calls from an event (the only
place a `Cleanup` result can show up in an `Ask` outcome). -/
def Event.scrubCleanup : Event α ε → Event α ε
  | .cleanupCall qi a _ => .cleanupCall qi a none
  | e => e

/-- Erase recorded `Cleanup` results from an `Ask` outcome. -/
def AskRes.scrub : AskRes τ α ε → AskRes τ α ε
  | .ok t tr => .ok t (tr.map Event.scrubCleanup)
  | .err e topt tr => .err e topt (tr.map Event.scrubCleanup)
  | .fuelOut t tr => .fuelOut t (tr.map Event.scrubCleanup)

/-- Erase recorded `Cleanup` results from a single-question outcome. -/
def StepRes.scrub : StepRes τ α ε → StepRes τ α ε
  | .ok t tr => .ok t (tr.map Event.scrubCleanup)
  | .abort e tr => .abort e (tr.map Event.scrubCleanup)
  | .fuelOut tr => .fuelOut (tr.map Event.scrubCleanup)

/-! ## Step equations for the retry loops -/

lemma LoopRes.trace_prepend (es : List (Event α ε)) (r : LoopRes α ε) :
    (r.prepend es).trace = es ++ r.trace := by
  cases r <;> rfl

lemma convertLoop_eq_ok {conv : Nat → α → Except ε α} {ci : Nat} {ans cAns : α}
    (qi : Nat) (p : PromptI α ε) (fuel pi ei : Nat) (h : conv ci ans = .ok cAns) :
    convertLoop qi p conv fuel pi ei ci ans =
      .ok ans cAns pi ei [.convertCall qi ans (.ok cAns)] := by
  rw [convertLoop.eq_def]
  simp only [h]

lemma convertLoop_eq_fuelOut {conv : Nat → α → Except ε α} {ci : Nat} {ans : α} {e1 : ε}
    (qi : Nat) (p : PromptI α ε) (pi ei : Nat) (h : conv ci ans = .error e1) :
    convertLoop qi p conv 0 pi ei ci ans =
      .fuelOut [.convertCall qi ans (.error e1)] := by
  rw [convertLoop.eq_def]
  simp only [h]

lemma convertLoop_eq_errAbort {conv : Nat → α → Except ε α} {ci : Nat} {ans : α}
    {e1 e2 : ε} (qi : Nat) (p : PromptI α ε) (f pi ei : Nat)
    (h : conv ci ans = .error e1) (he : p.error ei e1 = some e2) :
    convertLoop qi p conv (f + 1) pi ei ci ans =
      .abort e2 [.convertCall qi ans (.error e1), .errorCall qi e1 (some e2)] := by
  rw [convertLoop.eq_def]
  simp only [h, he]

lemma convertLoop_eq_promptAbort {conv : Nat → α → Except ε α} {ci : Nat} {ans : α}
    {e1 e3 : ε} (qi : Nat) (p : PromptI α ε) (f pi ei : Nat)
    (h : conv ci ans = .error e1) (he : p.error ei e1 = none)
    (hp : p.prompt pi = .error e3) :
    convertLoop qi p conv (f + 1) pi ei ci ans =
      .abort e3 [.convertCall qi ans (.error e1), .errorCall qi e1 none,
        .promptCall qi (.error e3)] := by
  rw [convertLoop.eq_def]
  simp only [h, he, hp]

lemma convertLoop_eq_step {conv : Nat → α → Except ε α} {ci : Nat} {ans ans2 : α}
    {e1 : ε} (qi : Nat) (p : PromptI α ε) (f pi ei : Nat)
    (h : conv ci ans = .error e1) (he : p.error ei e1 = none)
    (hp : p.prompt pi = .ok ans2) :
    convertLoop qi p conv (f + 1) pi ei ci ans =
      (convertLoop qi p conv f (pi + 1) (ei + 1) (ci + 1) ans2).prepend
        [.convertCall qi ans (.error e1), .errorCall qi e1 none,
          .promptCall qi (.ok ans2)] := by
  rw [convertLoop.eq_def]
  simp only [h, he, hp]

lemma validateLoop_eq_ok {val : Nat → α → Option ε} {vi : Nat} {cAns : α}
    (qi : Nat) (p : PromptI α ε) (fuel pi ei : Nat) (ans : α) (h : val vi cAns = none) :
    validateLoop qi p val cAns fuel pi ei vi ans =
      .ok ans cAns pi ei [.validateCall qi cAns none] := by
  rw [validateLoop.eq_def]
  simp only [h]

lemma validateLoop_eq_fuelOut {val : Nat → α → Option ε} {vi : Nat} {cAns : α} {e1 : ε}
    (qi : Nat) (p : PromptI α ε) (pi ei : Nat) (ans : α) (h : val vi cAns = some e1) :
    validateLoop qi p val cAns 0 pi ei vi ans =
      .fuelOut [.validateCall qi cAns (some e1)] := by
  rw [validateLoop.eq_def]
  simp only [h]

lemma validateLoop_eq_errAbort {val : Nat → α → Option ε} {vi : Nat} {cAns : α}
    {e1 e2 : ε} (qi : Nat) (p : PromptI α ε) (f pi ei : Nat) (ans : α)
    (h : val vi cAns = some e1) (he : p.error ei e1 = some e2) :
    validateLoop qi p val cAns (f + 1) pi ei vi ans =
      .abort e2 [.validateCall qi cAns (some e1), .errorCall qi e1 (some e2)] := by
  rw [validateLoop.eq_def]
  simp only [h, he]

lemma validateLoop_eq_promptAbort {val : Nat → α → Option ε} {vi : Nat} {cAns : α}
    {e1 e3 : ε} (qi : Nat) (p : PromptI α ε) (f pi ei : Nat) (ans : α)
    (h : val vi cAns = some e1) (he : p.error ei e1 = none)
    (hp : p.prompt pi = .error e3) :
    validateLoop qi p val cAns (f + 1) pi ei vi ans =
      .abort e3 [.validateCall qi cAns (some e1), .errorCall qi e1 none,
        .promptCall qi (.error e3)] := by
  rw [validateLoop.eq_def]
  simp only [h, he, hp]

lemma validateLoop_eq_step {val : Nat → α → Option ε} {vi : Nat} {cAns : α}
    {e1 : ε} {ans2 : α} (qi : Nat) (p : PromptI α ε) (f pi ei : Nat) (ans : α)
    (h : val vi cAns = some e1) (he : p.error ei e1 = none)
    (hp : p.prompt pi = .ok ans2) :
    validateLoop qi p val cAns (f + 1) pi ei vi ans =
      (validateLoop qi p val cAns f (pi + 1) (ei + 1) (vi + 1) ans2).prepend
        [.validateCall qi cAns (some e1), .errorCall qi e1 none,
          .promptCall qi (.ok ans2)] := by
  rw [validateLoop.eq_def]
  simp only [h, he, hp]

/-! ## Lemmas about the retry loops -/

/-- Shape of the conversion-loop trace: every event belongs to question
`qi`, and the loop performs no `Cleanup`, bind or `Validate` calls. -/
lemma convertLoop_trace_spec (qi : Nat) (p : PromptI α ε) (conv : Nat → α → Except ε α) :
    ∀ (fuel pi ei ci : Nat) (ans : α),
      (∀ e ∈ (convertLoop qi p conv fuel pi ei ci ans).trace, Event.qIdx e = qi) ∧
      cleanupCalls (convertLoop qi p conv fuel pi ei ci ans).trace = [] ∧
      traceBinds (convertLoop qi p conv fuel pi ei ci ans).trace = [] ∧
      bindNames (convertLoop qi p conv fuel pi ei ci ans).trace = [] ∧
      validateArgs (convertLoop qi p conv fuel pi ei ci ans).trace = [] := by
  intro fuel
  induction fuel with
  | zero =>
    intro pi ei ci ans
    rcases hc : conv ci ans with e1 | cAns
    · rw [convertLoop_eq_fuelOut qi p pi ei hc]
      simp [LoopRes.trace, cleanupCalls, traceBinds, bindNames, validateArgs, Event.qIdx]
    · rw [convertLoop_eq_ok qi p 0 pi ei hc]
      simp [LoopRes.trace, cleanupCalls, traceBinds, bindNames, validateArgs, Event.qIdx]
  | succ f ih =>
    intro pi ei ci ans
    rcases hc : conv ci ans with e1 | cAns
    · rcases he : p.error ei e1 with _ | e2
      · rcases hp : p.prompt pi with e3 | ans2
        · rw [convertLoop_eq_promptAbort qi p f pi ei hc he hp]
          simp [LoopRes.trace, cleanupCalls, traceBinds, bindNames, validateArgs, Event.qIdx]
        · have h := ih (pi + 1) (ei + 1) (ci + 1) ans2
          rw [convertLoop_eq_step qi p f pi ei hc he hp, LoopRes.trace_prepend]
          simp only [cleanupCalls, traceBinds, bindNames, validateArgs,
            List.filterMap_append, List.filterMap_cons, List.filterMap_nil,
            List.mem_append, List.mem_cons, List.not_mem_nil, List.cons_append,
            List.nil_append, false_or, or_false] at h ⊢
          constructor
          · rintro e (rfl | rfl | rfl | hmem)
            · rfl
            · rfl
            · rfl
            · exact h.1 e hmem
          · simpa using h.2
      · rw [convertLoop_eq_errAbort qi p f pi ei hc he]
        simp [LoopRes.trace, cleanupCalls, traceBinds, bindNames, validateArgs, Event.qIdx]
    · rw [convertLoop_eq_ok qi p (f + 1) pi ei hc]
      simp [LoopRes.trace, cleanupCalls, traceBinds, bindNames, validateArgs, Event.qIdx]

/-- Shape of the validation-loop trace: every event belongs to question
`qi`, the loop performs no `Cleanup`, bind or `Convert` calls, and every
`Validate` call receives exactly the working converted answer it was
started with. -/
lemma validateLoop_trace_spec (qi : Nat) (p : PromptI α ε) (val : Nat → α → Option ε)
    (cAns : α) :
    ∀ (fuel pi ei vi : Nat) (ans : α),
      (∀ e ∈ (validateLoop qi p val cAns fuel pi ei vi ans).trace, Event.qIdx e = qi) ∧
      cleanupCalls (validateLoop qi p val cAns fuel pi ei vi ans).trace = [] ∧
      traceBinds (validateLoop qi p val cAns fuel pi ei vi ans).trace = [] ∧
      bindNames (validateLoop qi p val cAns fuel pi ei vi ans).trace = [] ∧
      convertArgs (validateLoop qi p val cAns fuel pi ei vi ans).trace = [] ∧
      (∀ x ∈ validateArgs (validateLoop qi p val cAns fuel pi ei vi ans).trace, x = cAns) := by
  intro fuel
  induction fuel with
  | zero =>
    intro pi ei vi ans
    rcases hv : val vi cAns with _ | e1
    · rw [validateLoop_eq_ok qi p 0 pi ei ans hv]
      simp [LoopRes.trace, cleanupCalls, traceBinds, bindNames, convertArgs,
        validateArgs, Event.qIdx]
    · rw [validateLoop_eq_fuelOut qi p pi ei ans hv]
      simp [LoopRes.trace, cleanupCalls, traceBinds, bindNames, convertArgs,
        validateArgs, Event.qIdx]
  | succ f ih =>
    intro pi ei vi ans
    rcases hv : val vi cAns with _ | e1
    · rw [validateLoop_eq_ok qi p (f + 1) pi ei ans hv]
      simp [LoopRes.trace, cleanupCalls, traceBinds, bindNames, convertArgs,
        validateArgs, Event.qIdx]
    · rcases he : p.error ei e1 with _ | e2
      · rcases hp : p.prompt pi with e3 | ans2
        · rw [validateLoop_eq_promptAbort qi p f pi ei ans hv he hp]
          simp [LoopRes.trace, cleanupCalls, traceBinds, bindNames, convertArgs,
            validateArgs, Event.qIdx]
        · have h := ih (pi + 1) (ei + 1) (vi + 1) ans2
          rw [validateLoop_eq_step qi p f pi ei ans hv he hp, LoopRes.trace_prepend]
          simp only [cleanupCalls, traceBinds, bindNames, convertArgs, validateArgs,
            List.filterMap_append, List.filterMap_cons, List.filterMap_nil,
            List.mem_append, List.mem_cons, List.not_mem_nil, List.cons_append,
            List.nil_append, false_or, or_false] at h ⊢
          refine ⟨?_, ?_⟩
          · rintro e (rfl | rfl | rfl | hmem)
            · rfl
            · rfl
            · rfl
            · exact h.1 e hmem
          · refine ⟨by simpa using h.2.1, by simpa using h.2.2.1, by simpa using h.2.2.2.1,
              by simpa using h.2.2.2.2.1, ?_⟩
            rintro x (rfl | hmem)
            · rfl
            · exact h.2.2.2.2.2 x hmem
      · rw [validateLoop_eq_errAbort qi p f pi ei ans hv he]
        simp [LoopRes.trace, cleanupCalls, traceBinds, bindNames, convertArgs,
          validateArgs, Event.qIdx]

lemma bindNames_append (xs ys : List (Event α ε)) :
    bindNames (xs ++ ys) = bindNames xs ++ bindNames ys := by
  simp [bindNames, List.filterMap_append]

lemma traceBinds_append (xs ys : List (Event α ε)) :
    traceBinds (xs ++ ys) = traceBinds xs ++ traceBinds ys := by
  simp [traceBinds, List.filterMap_append]

lemma cleanupCalls_append (xs ys : List (Event α ε)) :
    cleanupCalls (xs ++ ys) = cleanupCalls xs ++ cleanupCalls ys := by
  simp [cleanupCalls, List.filterMap_append]

lemma convertArgs_append (xs ys : List (Event α ε)) :
    convertArgs (xs ++ ys) = convertArgs xs ++ convertArgs ys := by
  simp [convertArgs, List.filterMap_append]

lemma validateArgs_append (xs ys : List (Event α ε)) :
    validateArgs (xs ++ ys) = validateArgs xs ++ validateArgs ys := by
  simp [validateArgs, List.filterMap_append]

lemma bindValues_append (xs ys : List (Event α ε)) :
    bindValues (xs ++ ys) = bindValues xs ++ bindValues ys := by
  simp [bindValues, List.filterMap_append]

/-- A trace with no bind names has no bind values either (both observers
fire exactly on `bindCall` events). -/
lemma bindValues_eq_nil_of_bindNames (tr : List (Event α ε)) (h : bindNames tr = []) :
    bindValues tr = [] := by
  rw [bindNames, List.filterMap_eq_nil_iff] at h
  rw [bindValues, List.filterMap_eq_nil_iff]
  intro e he
  have h2 := h e he
  cases e <;> simp_all

/-- The validation loop never changes the working converted answer: if it
finishes, the accepted value is the `convertedAns` it started from. -/
lemma validateLoop_ok_convertedAns (qi : Nat) (p : PromptI α ε) (val : Nat → α → Option ε)
    (cAns : α) :
    ∀ (fuel pi ei vi : Nat) (ans a c : α) (pi2 ei2 : Nat) (tr : List (Event α ε)),
      validateLoop qi p val cAns fuel pi ei vi ans = .ok a c pi2 ei2 tr → c = cAns := by
  intro fuel
  induction fuel with
  | zero =>
    intro pi ei vi ans a c pi2 ei2 tr h
    rcases hv : val vi cAns with _ | e1
    · rw [validateLoop_eq_ok qi p 0 pi ei ans hv] at h
      cases h; rfl
    · rw [validateLoop_eq_fuelOut qi p pi ei ans hv] at h
      simp at h
  | succ f ih =>
    intro pi ei vi ans a c pi2 ei2 tr h
    rcases hv : val vi cAns with _ | e1
    · rw [validateLoop_eq_ok qi p (f + 1) pi ei ans hv] at h
      cases h; rfl
    · rcases he : p.error ei e1 with _ | e2
      · rcases hp : p.prompt pi with e3 | ans2
        · rw [validateLoop_eq_promptAbort qi p f pi ei ans hv he hp] at h
          simp at h
        · rw [validateLoop_eq_step qi p f pi ei ans hv he hp] at h
          rcases h2 : validateLoop qi p val cAns f (pi + 1) (ei + 1) (vi + 1) ans2 with
            ⟨a1, c1, pi1, ei1, tr1⟩ | ⟨e4, tr1⟩ | ⟨tr1⟩ <;> rw [h2] at h <;>
            simp [LoopRes.prepend] at h
          obtain ⟨-, hc, -⟩ := h
          exact hc ▸ ih (pi + 1) (ei + 1) (vi + 1) ans2 a1 c1 pi1 ei1 tr1 h2
      · rw [validateLoop_eq_errAbort qi p f pi ei ans hv he] at h
        simp at h

/-- The conversion phase has the same trace shape as the conversion loop
(or an empty trace when `Convert` is `nil`). -/
lemma convertPhase_trace_spec (qi : Nat) (p : PromptI α ε)
    (c : Option (Nat → α → Except ε α)) (fuel : Nat) (ans : α) :
    (∀ e ∈ (convertPhase qi p c fuel ans).trace, Event.qIdx e = qi) ∧
    cleanupCalls (convertPhase qi p c fuel ans).trace = [] ∧
    traceBinds (convertPhase qi p c fuel ans).trace = [] ∧
    bindNames (convertPhase qi p c fuel ans).trace = [] ∧
    validateArgs (convertPhase qi p c fuel ans).trace = [] := by
  cases c with
  | none => simp [convertPhase, LoopRes.trace, cleanupCalls, traceBinds, bindNames, validateArgs]
  | some conv => exact convertLoop_trace_spec qi p conv fuel 1 0 0 ans

/-- The validation phase has the same trace shape as the validation loop
(or an empty trace when `Validate` is `nil`). -/
lemma validatePhase_trace_spec (qi : Nat) (p : PromptI α ε)
    (v : Option (Nat → α → Option ε)) (fuel : Nat) (cAns : α) (pi ei : Nat) (ans : α) :
    (∀ e ∈ (validatePhase qi p v fuel cAns pi ei ans).trace, Event.qIdx e = qi) ∧
    cleanupCalls (validatePhase qi p v fuel cAns pi ei ans).trace = [] ∧
    traceBinds (validatePhase qi p v fuel cAns pi ei ans).trace = [] ∧
    bindNames (validatePhase qi p v fuel cAns pi ei ans).trace = [] ∧
    convertArgs (validatePhase qi p v fuel cAns pi ei ans).trace = [] ∧
    (∀ x ∈ validateArgs (validatePhase qi p v fuel cAns pi ei ans).trace, x = cAns) := by
  cases v with
  | none =>
    simp [validatePhase, LoopRes.trace, cleanupCalls, traceBinds, bindNames, convertArgs,
      validateArgs]
  | some val => exact validateLoop_trace_spec qi p val cAns fuel pi ei 0 ans

/-- The validation phase never changes the working converted answer. -/
lemma validatePhase_ok_convertedAns (qi : Nat) (p : PromptI α ε)
    (v : Option (Nat → α → Option ε)) (fuel : Nat) (cAns : α) (pi ei : Nat) (ans : α)
    (a c : α) (pi2 ei2 : Nat) (tr : List (Event α ε))
    (h : validatePhase qi p v fuel cAns pi ei ans = .ok a c pi2 ei2 tr) : c = cAns := by
  cases v with
  | none =>
    simp only [validatePhase] at h
    cases h; rfl
  | some val => exact validateLoop_ok_convertedAns qi p val cAns fuel pi ei 0 ans a c pi2 ei2 tr h

/-- Every event recorded while processing one question carries that
question's index, and every bind call uses that question's `Name`. -/
lemma askQ_trace_spec (WA : τ → String → α → Except ε τ) (fuel qi : Nat)
    (q : Question α ε) (t : τ) :
    (∀ e ∈ (askQ WA fuel qi q t).trace, Event.qIdx e = qi) ∧
    (∀ n ∈ bindNames (askQ WA fuel qi q t).trace, n = q.Name) := by
  rcases hq : q.Prompt.prompt 0 with e0 | ans
  · constructor
    · intro e he
      simp only [askQ, hq, StepRes.trace, List.mem_singleton] at he
      subst he; rfl
    · intro n hn
      simp [askQ, hq, StepRes.trace, bindNames] at hn
  · obtain ⟨hcq, -, -, hcn, -⟩ := convertPhase_trace_spec qi q.Prompt q.Convert fuel ans
    rcases hcp : convertPhase qi q.Prompt q.Convert fuel ans with
      ⟨a1, c1, pi, ei, trc⟩ | ⟨e, trc⟩ | ⟨trc⟩ <;> rw [hcp] at hcq hcn <;>
      simp only [LoopRes.trace] at hcq hcn
    · obtain ⟨hvq, -, -, hvn, -, -⟩ :=
        validatePhase_trace_spec qi q.Prompt q.Validate fuel c1 pi ei a1
      rcases hvp : validatePhase qi q.Prompt q.Validate fuel c1 pi ei a1 with
        ⟨a2, c2, pi2, ei2, trv⟩ | ⟨e, trv⟩ | ⟨trv⟩ <;> rw [hvp] at hvq hvn <;>
        simp only [LoopRes.trace] at hvq hvn
      · rcases hwa : WA t q.Name c2 with e | t2
        · constructor
          · intro e1 he
            simp only [askQ, hq, hcp, hvp, hwa, StepRes.trace, List.mem_cons,
              List.mem_append, List.not_mem_nil, or_false] at he
            rcases he with rfl | (hin | hin) | rfl | rfl
            · rfl
            · exact hcq _ hin
            · exact hvq _ hin
            · rfl
            · rfl
          · intro n hn
            simp only [askQ, hq, hcp, hvp, hwa, StepRes.trace] at hn
            simp only [bindNames, List.filterMap_cons, List.filterMap_append] at hn hcn hvn
            simp only [hcn, hvn] at hn
            simpa using hn
        · constructor
          · intro e1 he
            simp only [askQ, hq, hcp, hvp, hwa, StepRes.trace, List.mem_cons,
              List.mem_append, List.not_mem_nil, or_false] at he
            rcases he with rfl | (hin | hin) | rfl | rfl
            · rfl
            · exact hcq _ hin
            · exact hvq _ hin
            · rfl
            · rfl
          · intro n hn
            simp only [askQ, hq, hcp, hvp, hwa, StepRes.trace] at hn
            simp only [bindNames, List.filterMap_cons, List.filterMap_append] at hn hcn hvn
            simp only [hcn, hvn] at hn
            simpa using hn
      · constructor
        · intro e1 he
          simp only [askQ, hq, hcp, hvp, StepRes.trace, List.mem_cons, List.mem_append] at he
          rcases he with rfl | hin | hin
          · rfl
          · exact hcq _ hin
          · exact hvq _ hin
        · intro n hn
          simp only [askQ, hq, hcp, hvp, StepRes.trace] at hn
          simp only [bindNames, List.filterMap_cons, List.filterMap_append] at hn hcn hvn
          simp only [hcn, hvn] at hn
          simp at hn
      · constructor
        · intro e1 he
          simp only [askQ, hq, hcp, hvp, StepRes.trace, List.mem_cons, List.mem_append] at he
          rcases he with rfl | hin | hin
          · rfl
          · exact hcq _ hin
          · exact hvq _ hin
        · intro n hn
          simp only [askQ, hq, hcp, hvp, StepRes.trace] at hn
          simp only [bindNames, List.filterMap_cons, List.filterMap_append] at hn hcn hvn
          simp only [hcn, hvn] at hn
          simp at hn
    · constructor
      · intro e1 he
        simp only [askQ, hq, hcp, StepRes.trace, List.mem_cons] at he
        rcases he with rfl | hin
        · rfl
        · exact hcq _ hin
      · intro n hn
        simp only [askQ, hq, hcp, StepRes.trace] at hn
        simp only [bindNames, List.filterMap_cons] at hn hcn
        simp only [hcn] at hn
        simp at hn
    · constructor
      · intro e1 he
        simp only [askQ, hq, hcp, StepRes.trace, List.mem_cons] at he
        rcases he with rfl | hin
        · rfl
        · exact hcq _ hin
      · intro n hn
        simp only [askQ, hq, hcp, StepRes.trace] at hn
        simp only [bindNames, List.filterMap_cons] at hn hcn
        simp only [hcn] at hn
        simp at hn

/-! ## Lemmas about the question loop -/

lemma AskRes.prepend_nil (r : AskRes τ α ε) : r.prepend [] = r := by
  cases r <;> simp [prepend]

lemma AskRes.prepend_prepend (es1 es2 : List (Event α ε)) (r : AskRes τ α ε) :
    (r.prepend es2).prepend es1 = r.prepend (es1 ++ es2) := by
  cases r <;> simp [prepend]

lemma AskRes.prepend_trace (es : List (Event α ε)) (r : AskRes τ α ε) :
    (r.prepend es).trace = es ++ r.trace := by
  cases r <;> rfl

/-- Processing a concatenated question list is processing the first part,
then (on success) the second part starting at the shifted index. -/
lemma askList_append (WA : τ → String → α → Except ε τ) (fuel : Nat)
    (qs1 qs2 : List (Question α ε)) :
    ∀ (qi : Nat) (t : τ),
      askList WA fuel (qs1 ++ qs2) qi t =
        match askList WA fuel qs1 qi t with
        | .ok t2 tr => (askList WA fuel qs2 (qi + qs1.length) t2).prepend tr
        | r => r := by
  induction qs1 with
  | nil =>
    intro qi t
    simp [askList, AskRes.prepend_nil]
  | cons q rest ih =>
    intro qi t
    simp only [List.cons_append, askList]
    rcases h : askQ WA fuel qi q t with ⟨t2, tr⟩ | ⟨e, tr⟩ | ⟨tr⟩ <;>
      dsimp only <;> simp only [List.append_eq]
    · rw [ih (qi + 1) t2]
      have harith : qi + 1 + rest.length = qi + (q :: rest).length := by
        simp only [List.length_cons]; omega
      rcases h2 : askList WA fuel rest (qi + 1) t2 with
        ⟨t3, tr2⟩ | ⟨e2, topt, tr2⟩ | ⟨t3, tr2⟩ <;>
        simp only [AskRes.prepend, AskRes.prepend_prepend, harith] <;>
        cases askList WA fuel qs2 (qi + (q :: rest).length) t3 <;>
        simp [List.append_assoc]

/-- Every event recorded by `askList` starting at index `qi` belongs to a
question with index in `[qi, qi + qs.length)`. -/
lemma askList_qIdx (WA : τ → String → α → Except ε τ) (fuel : Nat) :
    ∀ (qs : List (Question α ε)) (qi : Nat) (t : τ),
      ∀ e ∈ (askList WA fuel qs qi t).trace, qi ≤ e.qIdx ∧ e.qIdx < qi + qs.length := by
  intro qs
  induction qs with
  | nil =>
    intro qi t e he
    simp [askList, AskRes.trace] at he
  | cons q rest ih =>
    intro qi t e he
    simp only [askList] at he
    rcases h : askQ WA fuel qi q t with ⟨t2, tr⟩ | ⟨e2, tr⟩ | ⟨tr⟩ <;> rw [h] at he
    · rw [AskRes.prepend_trace, List.mem_append] at he
      rcases he with hin | hin
      · have hq := (askQ_trace_spec WA fuel qi q t).1 e (by rw [h]; exact hin)
        simp only [List.length_cons]
        omega
      · have hr := ih (qi + 1) t2 e hin
        simp only [List.length_cons]
        omega
    · have hq := (askQ_trace_spec WA fuel qi q t).1 e (by rw [h]; exact he)
      simp only [List.length_cons]
      omega
    · have hq := (askQ_trace_spec WA fuel qi q t).1 e (by rw [h]; exact he)
      simp only [List.length_cons]
      omega

/-- Every name passed to the Answer Binder during `askList` is the `Name`
of one of the processed questions. -/
lemma askList_bindNames (WA : τ → String → α → Except ε τ) (fuel : Nat) :
    ∀ (qs : List (Question α ε)) (qi : Nat) (t : τ),
      ∀ n ∈ bindNames (askList WA fuel qs qi t).trace, ∃ q ∈ qs, n = q.Name := by
  intro qs
  induction qs with
  | nil =>
    intro qi t n hn
    simp [askList, AskRes.trace, bindNames] at hn
  | cons q rest ih =>
    intro qi t n hn
    simp only [askList] at hn
    rcases h : askQ WA fuel qi q t with ⟨t2, tr⟩ | ⟨e2, tr⟩ | ⟨tr⟩ <;> rw [h] at hn
    · rw [AskRes.prepend_trace, bindNames_append, List.mem_append] at hn
      rcases hn with hin | hin
      · exact ⟨q, List.mem_cons_self q rest,
          (askQ_trace_spec WA fuel qi q t).2 n (by rw [h]; exact hin)⟩
      · obtain ⟨q2, hq2, hname⟩ := ih (qi + 1) t2 n hin
        exact ⟨q2, List.mem_cons_of_mem q hq2, hname⟩
    · exact ⟨q, List.mem_cons_self q rest,
        (askQ_trace_spec WA fuel qi q t).2 n (by rw [h]; exact hn)⟩
    · exact ⟨q, List.mem_cons_self q rest,
        (askQ_trace_spec WA fuel qi q t).2 n (by rw [h]; exact hn)⟩

/-- If the validator rejects the working converted answer at every call
while `Error()` and `Prompt()` keep succeeding, the validation loop
exhausts any amount of fuel: it re-validates the same value forever. -/
lemma validateLoop_fuelOut (qi : Nat) (p : PromptI α ε) (val : Nat → α → Option ε)
    (cAns : α) (e0 : ε) (a : Nat → α)
    (hrej : ∀ i, val i cAns = some e0)
    (herr : ∀ i e, p.error i e = none)
    (hprompt : ∀ i, p.prompt i = .ok (a i)) :
    ∀ (fuel pi ei vi : Nat) (ans : α),
      ∃ tr, validateLoop qi p val cAns fuel pi ei vi ans = .fuelOut tr := by
  intro fuel
  induction fuel with
  | zero =>
    intro pi ei vi ans
    exact ⟨_, validateLoop_eq_fuelOut qi p pi ei ans (hrej vi)⟩
  | succ f ih =>
    intro pi ei vi ans
    obtain ⟨tr, htr⟩ := ih (pi + 1) (ei + 1) (vi + 1) (a pi)
    refine ⟨[Event.validateCall qi cAns (some e0), Event.errorCall qi e0 none,
      Event.promptCall qi (Except.ok (a pi))] ++ tr, ?_⟩
    rw [validateLoop_eq_step qi p f pi ei ans (hrej vi) (herr ei e0) (hprompt pi), htr]
    rfl

/-- When the first conversion attempt succeeds (or there is no converter),
the conversion phase accepts immediately: raw value unchanged, converted
answer as converted, counters at 1 and 0. -/
lemma convertPhase_firstTry (qi : Nat) (p : PromptI α ε)
    (c : Option (Nat → α → Except ε α)) (fuel : Nat) (ans ca : α)
    (hconv : convApply c 0 ans = .ok ca) :
    ∃ trc, convertPhase qi p c fuel ans = .ok ans ca 1 0 trc ∧
      (trc = [] ∨ trc = [.convertCall qi ans (.ok ca)]) := by
  cases c with
  | none =>
    simp only [convApply] at hconv
    cases hconv
    exact ⟨[], rfl, Or.inl rfl⟩
  | some conv =>
    simp only [convApply] at hconv
    refine ⟨[.convertCall qi ans (.ok ca)], ?_, Or.inr rfl⟩
    rw [convertPhase, convertLoop_eq_ok qi p fuel 1 0 hconv]

/-- When the first validation attempt accepts (or there is no validator),
the validation phase accepts immediately and passes everything through. -/
lemma validatePhase_firstTry (qi : Nat) (p : PromptI α ε)
    (v : Option (Nat → α → Option ε)) (fuel : Nat) (cAns : α) (pi ei : Nat) (ans : α)
    (hv : valApply v 0 cAns = none) :
    ∃ trv, validatePhase qi p v fuel cAns pi ei ans = .ok ans cAns pi ei trv ∧
      (trv = [] ∨ trv = [.validateCall qi cAns none]) := by
  cases v with
  | none => exact ⟨[], rfl, Or.inl rfl⟩
  | some val =>
    simp only [valApply] at hv
    refine ⟨[.validateCall qi cAns none], ?_, Or.inr rfl⟩
    rw [validatePhase, validateLoop_eq_ok qi p fuel pi ei ans hv]

/-! ## Concrete instances used by the witness theorems -/

/-- A concrete Answer Binder for witness runs: record each bound
`(name, value)` pair at the end of a list container. -/
def exWrite : List (String × Nat) → String → Nat → Except Nat (List (String × Nat)) :=
  fun t n v => .ok (t ++ [(n, v)])

/-- A concrete Answer Binder that always fails with error 99. -/
def exWriteBad : List (String × Nat) → String → Nat → Except Nat (List (String × Nat)) :=
  fun _ _ _ => .error 99

/-- A concrete prompt whose `i`-th `Prompt()` call returns `10 + i` and
whose `Error` and `Cleanup` always succeed. -/
def exPrompt : PromptI Nat Nat :=
  { prompt := fun i => .ok (10 + i), error := fun _ _ => none, cleanup := fun _ => none }

/-- A concrete prompt whose `Prompt()` always fails with error 7. -/
def exPromptBad : PromptI Nat Nat :=
  { prompt := fun _ => .error 7, error := fun _ _ => none, cleanup := fun _ => none }

/-- A concrete question whose validator rejects every value with error 3. -/
def exQReject : Question Nat Nat :=
  { Name := "z", Prompt := exPrompt, Validate := some (fun _ _ => some 3), Convert := none }

/-! ## The claims -/

/-- C5: for every question list, calling `ask` with a nil answer container
returns the configuration error immediately, with an empty event trace —
so no `Prompt()`, `Error()`, `Cleanup` and no bind call is ever made. -/
theorem ask_nil_container (WA : τ → String → α → Except ε τ) (fuel : Nat)
    (qs : List (Question α ε)) :
    Ask WA fuel qs none =
      .err (.config "cannot call Ask() with a nil reference to record the answers") none [] :=
  rfl

/-- C6: `askOne prompt container validate convert` is literally `ask` on
the single-element question list built from those arguments (with the
`Name` left at its zero value): same outcome, same error, and the same
trace of `Prompt()`, `Convert`, `Validate`, `Error()`, `Cleanup` and bind
calls. -/
theorem askOne_delegates_to_ask (WA : τ → String → α → Except ε τ) (fuel : Nat)
    (p : PromptI α ε) (t : Option τ) (v : Option (Nat → α → Option ε))
    (c : Option (Nat → α → Except ε α)) :
    AskOne WA fuel p t v c =
      Ask WA fuel [{ Name := "", Prompt := p, Validate := v, Convert := c }] t :=
  rfl

/-- C10: `AskOne` builds its one-element question list without setting the
question's `Name`, so every name it ever passes to the Answer Binder is
the empty string. -/
theorem askOne_binds_empty_name (WA : τ → String → α → Except ε τ) (fuel : Nat)
    (p : PromptI α ε) (t : Option τ) (v : Option (Nat → α → Option ε))
    (c : Option (Nat → α → Except ε α)) :
    ∀ n ∈ bindNames (AskOne WA fuel p t v c).trace, n = "" := by
  intro n hn
  rcases t with _ | t0
  · simp [AskOne, Ask, AskRes.trace, bindNames] at hn
  · simp only [AskOne, Ask] at hn
    obtain ⟨q, hq, hname⟩ := askList_bindNames WA fuel
      [{ Name := "", Prompt := p, Validate := v, Convert := c }] 0 t0 n hn
    simp only [List.mem_singleton] at hq
    subst hq
    exact hname

/-- Witness for C10: a concrete `AskOne` run that does reach the Answer
Binder; the theorem applies to its recorded bind name. -/
theorem askOne_binds_empty_name_witness :
    "" ∈ bindNames (AskOne exWrite 1 exPrompt (some ([] : List (String × Nat))) none none).trace ∧
    ("" : String) = "" :=
  ⟨by decide, askOne_binds_empty_name exWrite 1 exPrompt (some []) none none "" (by decide)⟩

/-- C9: `ask` need not terminate.  For a question whose validator is a
pure function (its result does not depend on the call count) that rejects
the working converted answer, while `Prompt()` and `Error()` always
succeed, the validation retry loop re-validates the same value forever:
for every amount of retry fuel the run ends in `fuelOut`, i.e. the Go
program never returns. -/
theorem ask_need_not_terminate (WA : τ → String → α → Except ε τ)
    (q : Question α ε) (t0 : τ) (a : Nat → α) (val : Nat → α → Option ε)
    (ca : α) (e0 : ε)
    (hprompt : ∀ i, q.Prompt.prompt i = .ok (a i))
    (herr : ∀ i e, q.Prompt.error i e = none)
    (hval : q.Validate = some val)
    (hconv : convApply q.Convert 0 (a 0) = .ok ca)
    (hrej : ∀ i, val i ca = some e0) :
    ∀ fuel, (Ask WA fuel [q] (some t0)).isFuelOut = true := by
  intro fuel
  obtain ⟨trc, hcp, -⟩ :=
    convertPhase_firstTry 0 q.Prompt q.Convert fuel (a 0) ca hconv
  obtain ⟨trv, htrv⟩ := validateLoop_fuelOut 0 q.Prompt val ca e0 a hrej herr hprompt
    fuel 1 0 0 (a 0)
  have hvp : validatePhase 0 q.Prompt q.Validate fuel ca 1 0 (a 0) = .fuelOut trv := by
    rw [validatePhase.eq_def, hval]
    exact htrv
  have hstep : askQ WA fuel 0 q t0 =
      .fuelOut (Event.promptCall 0 (.ok (a 0)) :: (trc ++ trv)) := by
    rw [askQ.eq_def, hprompt 0]
    simp only [hcp, hvp]
  rw [Ask, askList, hstep]
  rfl

/-- Witness for C9: a concrete run whose validator always rejects; with
fuel 5 the run ends in `fuelOut`. -/
theorem ask_need_not_terminate_witness :
    (Ask exWrite 5 [exQReject] (some ([] : List (String × Nat)))).isFuelOut = true :=
  ask_need_not_terminate exWrite exQReject [] (fun i => 10 + i) (fun _ _ => some 3) 10 3
    (fun _ => rfl) (fun _ _ => rfl) rfl rfl (fun _ => rfl) 5

/-- C3: with a converter and a validator where validation fails exactly
once and then succeeds (while `Prompt()` and `Error()` succeed), the loop
reports the error, obtains one extra raw value, and re-validates the SAME
working converted answer: the new raw value is never re-converted (exactly
one `Convert` call, on the first raw value only), `Prompt()` is called one
extra time (twice in total), `Error()` exactly once, and the value that
passes validation and is bound is the original converted value `ca`, not
one derived from the new raw input. -/
theorem ask_validate_retry_stale_value (WA : τ → String → α → Except ε τ) (fuel : Nat)
    (q : Question α ε) (t0 t1 : τ) (a0 a1 ca : α) (conv : Nat → α → Except ε α)
    (val : Nat → α → Option ε) (ev : ε)
    (hp0 : q.Prompt.prompt 0 = .ok a0)
    (hp1 : q.Prompt.prompt 1 = .ok a1)
    (hconv : q.Convert = some conv)
    (hc0 : conv 0 a0 = .ok ca)
    (hval : q.Validate = some val)
    (hv0 : val 0 ca = some ev)
    (hv1 : val 1 ca = none)
    (herr : q.Prompt.error 0 ev = none)
    (hwa : WA t0 q.Name ca = .ok t1) :
    ∃ tr, Ask WA (fuel + 1) [q] (some t0) = .ok t1 tr ∧
      tr = [.promptCall 0 (.ok a0), .convertCall 0 a0 (.ok ca),
        .validateCall 0 ca (some ev), .errorCall 0 ev none, .promptCall 0 (.ok a1),
        .validateCall 0 ca none, .cleanupCall 0 a1 (q.Prompt.cleanup a1),
        .bindCall 0 q.Name ca none] ∧
      promptCount tr = 2 ∧ errorCount tr = 1 ∧ convertArgs tr = [a0] ∧
      traceBinds tr = [(q.Name, ca)] := by
  have hcstep : convertPhase 0 q.Prompt q.Convert (fuel + 1) a0 =
      .ok a0 ca 1 0 [.convertCall 0 a0 (.ok ca)] := by
    rw [convertPhase.eq_def, hconv]
    exact convertLoop_eq_ok 0 q.Prompt (fuel + 1) 1 0 hc0
  have hvstep : validatePhase 0 q.Prompt q.Validate (fuel + 1) ca 1 0 a0 =
      .ok a1 ca 2 1 [.validateCall 0 ca (some ev), .errorCall 0 ev none,
        .promptCall 0 (.ok a1), .validateCall 0 ca none] := by
    rw [validatePhase.eq_def, hval]
    show validateLoop 0 q.Prompt val ca (fuel + 1) 1 0 0 a0 = _
    rw [validateLoop_eq_step 0 q.Prompt fuel 1 0 a0 hv0 herr hp1,
      validateLoop_eq_ok 0 q.Prompt fuel 2 1 a1 hv1]
    rfl
  have hstep : askQ WA (fuel + 1) 0 q t0 = .ok t1
      [.promptCall 0 (.ok a0), .convertCall 0 a0 (.ok ca),
        .validateCall 0 ca (some ev), .errorCall 0 ev none, .promptCall 0 (.ok a1),
        .validateCall 0 ca none, .cleanupCall 0 a1 (q.Prompt.cleanup a1),
        .bindCall 0 q.Name ca none] := by
    rw [askQ.eq_def, hp0]
    simp only [hcstep, hvstep, hwa]
    rfl
  refine ⟨_, ?_, rfl, rfl, rfl, rfl, rfl⟩
  simp [Ask, askList, hstep, AskRes.prepend]

/-- A concrete question for the C3 witness: converter adds 100, validator
rejects with error 5 on its first call only. -/
def exQValOnce : Question Nat Nat :=
  { Name := "y", Prompt := exPrompt,
    Validate := some (fun i _ => if i = 0 then some 5 else none),
    Convert := some (fun _ a => .ok (a + 100)) }

/-- Witness for C3: the concrete run prompts 10 then 11, converts 10 to
110 once, reports one validation error, and binds 110. -/
theorem ask_validate_retry_stale_value_witness :
    ∃ tr, Ask exWrite 1 [exQValOnce] (some ([] : List (String × Nat))) =
        .ok [("y", 110)] tr ∧
      tr = [.promptCall 0 (.ok 10), .convertCall 0 10 (.ok 110),
        .validateCall 0 110 (some 5), .errorCall 0 5 none, .promptCall 0 (.ok 11),
        .validateCall 0 110 none, .cleanupCall 0 11 (exQValOnce.Prompt.cleanup 11),
        .bindCall 0 "y" 110 none] ∧
      promptCount tr = 2 ∧ errorCount tr = 1 ∧ convertArgs tr = [10] ∧
      traceBinds tr = [("y", 110)] :=
  ask_validate_retry_stale_value exWrite 0 exQValOnce [] [("y", 110)] 10 11 110
    (fun _ a => .ok (a + 100)) (fun i _ => if i = 0 then some 5 else none) 5
    rfl rfl rfl rfl rfl rfl rfl rfl rfl

/-- C4: with a converter that fails exactly twice and then succeeds (while
`Prompt()` and `Error()` succeed and validation, if any, accepts the
converted value at once), `Prompt()` is called exactly three times and
`Error()` exactly twice before the answer is bound, each conversion
attempt is applied to the most recently obtained raw value
(`[a0, a1, a2]` in order), and the bound value is the final conversion
result. -/
theorem ask_convert_retry_counts (WA : τ → String → α → Except ε τ) (fuel : Nat)
    (q : Question α ε) (t0 t1 : τ) (a0 a1 a2 v : α) (conv : Nat → α → Except ε α)
    (e0 e1 : ε)
    (hp0 : q.Prompt.prompt 0 = .ok a0)
    (hp1 : q.Prompt.prompt 1 = .ok a1)
    (hp2 : q.Prompt.prompt 2 = .ok a2)
    (hconv : q.Convert = some conv)
    (hc0 : conv 0 a0 = .error e0)
    (hc1 : conv 1 a1 = .error e1)
    (hc2 : conv 2 a2 = .ok v)
    (he0 : q.Prompt.error 0 e0 = none)
    (he1 : q.Prompt.error 1 e1 = none)
    (hval : valApply q.Validate 0 v = none)
    (hwa : WA t0 q.Name v = .ok t1) :
    ∃ tr, Ask WA (fuel + 2) [q] (some t0) = .ok t1 tr ∧
      promptCount tr = 3 ∧ errorCount tr = 2 ∧ convertArgs tr = [a0, a1, a2] ∧
      traceBinds tr = [(q.Name, v)] := by
  have hcl : convertLoop 0 q.Prompt conv (fuel + 2) 1 0 0 a0 =
      .ok a2 v 3 2 [.convertCall 0 a0 (.error e0), .errorCall 0 e0 none,
        .promptCall 0 (.ok a1), .convertCall 0 a1 (.error e1), .errorCall 0 e1 none,
        .promptCall 0 (.ok a2), .convertCall 0 a2 (.ok v)] := by
    rw [show fuel + 2 = fuel + 1 + 1 from rfl]
    rw [convertLoop_eq_step 0 q.Prompt (fuel + 1) 1 0 hc0 he0 hp1]
    rw [convertLoop_eq_step 0 q.Prompt fuel 2 1 hc1 he1 hp2]
    rw [convertLoop_eq_ok 0 q.Prompt fuel 3 2 hc2]
    rfl
  have hcp : convertPhase 0 q.Prompt q.Convert (fuel + 2) a0 =
      .ok a2 v 3 2 [.convertCall 0 a0 (.error e0), .errorCall 0 e0 none,
        .promptCall 0 (.ok a1), .convertCall 0 a1 (.error e1), .errorCall 0 e1 none,
        .promptCall 0 (.ok a2), .convertCall 0 a2 (.ok v)] := by
    rw [convertPhase.eq_def, hconv]
    exact hcl
  obtain ⟨trv, hvp, htrv⟩ :=
    validatePhase_firstTry 0 q.Prompt q.Validate (fuel + 2) v 3 2 a2 hval
  have hstep : askQ WA (fuel + 2) 0 q t0 = .ok t1
      (Event.promptCall 0 (.ok a0) ::
        ([.convertCall 0 a0 (.error e0), .errorCall 0 e0 none,
          .promptCall 0 (.ok a1), .convertCall 0 a1 (.error e1), .errorCall 0 e1 none,
          .promptCall 0 (.ok a2), .convertCall 0 a2 (.ok v)] ++ trv ++
          [.cleanupCall 0 a2 (q.Prompt.cleanup a2), .bindCall 0 q.Name v none])) := by
    rw [askQ.eq_def, hp0]
    simp only [hcp, hvp, hwa]
  refine ⟨Event.promptCall 0 (.ok a0) ::
      ([.convertCall 0 a0 (.error e0), .errorCall 0 e0 none, .promptCall 0 (.ok a1),
        .convertCall 0 a1 (.error e1), .errorCall 0 e1 none, .promptCall 0 (.ok a2),
        .convertCall 0 a2 (.ok v)] ++ trv ++
        [.cleanupCall 0 a2 (q.Prompt.cleanup a2), .bindCall 0 q.Name v none]),
    ?_, ?_, ?_, ?_, ?_⟩
  · simp [Ask, askList, hstep, AskRes.prepend]
  · rcases htrv with rfl | rfl <;> rfl
  · rcases htrv with rfl | rfl <;> rfl
  · rcases htrv with rfl | rfl <;> rfl
  · rcases htrv with rfl | rfl <;> rfl

/-- A concrete question for the C4 witness: converter fails with errors
20 and 21 on its first two calls, then doubles the raw value. -/
def exQConvTwice : Question Nat Nat :=
  { Name := "x", Prompt := exPrompt, Validate := none,
    Convert := some (fun i a => if i < 2 then .error (20 + i) else .ok (a * 2)) }

/-- Witness for C4: the concrete run prompts 10, 11, 12, reports two
conversion errors, converts each raw value in turn, and binds 24. -/
theorem ask_convert_retry_counts_witness :
    ∃ tr, Ask exWrite 2 [exQConvTwice] (some ([] : List (String × Nat))) =
        .ok [("x", 24)] tr ∧
      promptCount tr = 3 ∧ errorCount tr = 2 ∧ convertArgs tr = [10, 11, 12] ∧
      traceBinds tr = [("x", 24)] :=
  ask_convert_retry_counts exWrite 0 exQConvTwice [] [("x", 24)] 10 11 12 24
    (fun i a => if i < 2 then .error (20 + i) else .ok (a * 2)) 20 21
    rfl rfl rfl rfl rfl rfl rfl rfl rfl rfl rfl

/-- C7: for a question with no converter, the value passed to every
`Validate` call and the value passed to every Answer-Binder call is
exactly the raw value obtained from the initial `Prompt()` — no conversion
is performed, even in runs where validation retries trigger further
`Prompt()` calls. -/
theorem ask_no_convert_raw_value (WA : τ → String → α → Except ε τ) (fuel qi : Nat)
    (q : Question α ε) (t : τ) (a0 : α)
    (hconv : q.Convert = none)
    (hp0 : q.Prompt.prompt 0 = .ok a0) :
    (∀ x ∈ validateArgs (askQ WA fuel qi q t).trace, x = a0) ∧
    (∀ v ∈ bindValues (askQ WA fuel qi q t).trace, v = a0) := by
  have hcp : convertPhase qi q.Prompt q.Convert fuel a0 = .ok a0 a0 1 0 [] := by
    rw [convertPhase.eq_def, hconv]
  obtain ⟨-, -, -, hvn, -, hvargs⟩ :=
    validatePhase_trace_spec qi q.Prompt q.Validate fuel a0 1 0 a0
  rcases hvp : validatePhase qi q.Prompt q.Validate fuel a0 1 0 a0 with
    ⟨a2, c2, pi2, ei2, trv⟩ | ⟨e, trv⟩ | ⟨trv⟩ <;> rw [hvp] at hvargs hvn <;>
    simp only [LoopRes.trace] at hvargs hvn <;>
    simp only [validateArgs] at hvargs
  · have hc2 : c2 = a0 := validatePhase_ok_convertedAns qi q.Prompt q.Validate fuel a0 1 0 a0
      a2 c2 pi2 ei2 trv hvp
    subst hc2
    have hbv := bindValues_eq_nil_of_bindNames trv hvn
    simp only [bindValues] at hbv
    rcases hwa : WA t q.Name c2 with e2 | t2
    · have hstep : askQ WA fuel qi q t = .abort e2
          (Event.promptCall qi (.ok c2) :: (([] : List (Event α ε)) ++ trv ++
            [.cleanupCall qi a2 (q.Prompt.cleanup a2), .bindCall qi q.Name c2 (some e2)])) := by
        rw [askQ.eq_def, hp0]
        simp only [hcp, hvp, hwa]
      rw [hstep]
      constructor
      · intro x hx
        simp only [StepRes.trace, validateArgs, List.filterMap_cons, List.filterMap_append,
          List.filterMap_nil, List.nil_append, List.append_nil] at hx
        exact hvargs x hx
      · intro v hv
        simp only [StepRes.trace, bindValues, List.filterMap_cons, List.filterMap_append,
          List.filterMap_nil, List.nil_append, hbv] at hv
        simpa using hv
    · have hstep : askQ WA fuel qi q t = .ok t2
          (Event.promptCall qi (.ok c2) :: (([] : List (Event α ε)) ++ trv ++
            [.cleanupCall qi a2 (q.Prompt.cleanup a2), .bindCall qi q.Name c2 none])) := by
        rw [askQ.eq_def, hp0]
        simp only [hcp, hvp, hwa]
      rw [hstep]
      constructor
      · intro x hx
        simp only [StepRes.trace, validateArgs, List.filterMap_cons, List.filterMap_append,
          List.filterMap_nil, List.nil_append, List.append_nil] at hx
        exact hvargs x hx
      · intro v hv
        simp only [StepRes.trace, bindValues, List.filterMap_cons, List.filterMap_append,
          List.filterMap_nil, List.nil_append, hbv] at hv
        simpa using hv
  · have hstep : askQ WA fuel qi q t = .abort e
        (Event.promptCall qi (.ok a0) :: (([] : List (Event α ε)) ++ trv)) := by
      rw [askQ.eq_def, hp0]
      simp only [hcp, hvp]
    rw [hstep]
    have hbv := bindValues_eq_nil_of_bindNames trv hvn
    simp only [bindValues] at hbv
    constructor
    · intro x hx
      simp only [StepRes.trace, validateArgs, List.filterMap_cons, List.filterMap_append,
        List.filterMap_nil, List.nil_append] at hx
      exact hvargs x hx
    · intro v hv
      simp only [StepRes.trace, bindValues, List.filterMap_cons, List.filterMap_append,
        List.filterMap_nil, List.nil_append, hbv] at hv
      simp at hv
  · have hstep : askQ WA fuel qi q t = .fuelOut
        (Event.promptCall qi (.ok a0) :: (([] : List (Event α ε)) ++ trv)) := by
      rw [askQ.eq_def, hp0]
      simp only [hcp, hvp]
    rw [hstep]
    have hbv := bindValues_eq_nil_of_bindNames trv hvn
    simp only [bindValues] at hbv
    constructor
    · intro x hx
      simp only [StepRes.trace, validateArgs, List.filterMap_cons, List.filterMap_append,
        List.filterMap_nil, List.nil_append] at hx
      exact hvargs x hx
    · intro v hv
      simp only [StepRes.trace, bindValues, List.filterMap_cons, List.filterMap_append,
        List.filterMap_nil, List.nil_append, hbv] at hv
      simp at hv

/-- A concrete question for the C7 witness: no converter, validator
rejects with error 6 on its first call only (so the run retries once). -/
def exQNoConv : Question Nat Nat :=
  { Name := "w", Prompt := exPrompt,
    Validate := some (fun i _ => if i = 0 then some 6 else none),
    Convert := none }

/-- Witness for C7: in the concrete retry run, the value 10 (the first
raw value) is among the validated values and among the bound values, and
the theorem maps each of them back to 10. -/
theorem ask_no_convert_raw_value_witness :
    (10 ∈ validateArgs (askQ exWrite 2 0 exQNoConv ([] : List (String × Nat))).trace ∧
      10 ∈ bindValues (askQ exWrite 2 0 exQNoConv ([] : List (String × Nat))).trace) ∧
    (10 : Nat) = 10 ∧ (10 : Nat) = 10 :=
  ⟨⟨by decide, by decide⟩,
    (ask_no_convert_raw_value exWrite 2 0 exQNoConv [] 10 rfl rfl).1 10 (by decide),
    (ask_no_convert_raw_value exWrite 2 0 exQNoConv [] 10 rfl rfl).2 10 (by decide)⟩

/-- When every operation of a question succeeds at the first attempt and
the binder succeeds, the question step returns the updated container and
records exactly one successful bind: the question's name with its
(possibly converted) first answer. -/
lemma askQ_firstTry [Inhabited α] (WA : τ → String → α → Except ε τ) (fuel qi : Nat)
    (q : Question α ε) (t t2 : τ)
    (hq : firstTryOK q)
    (hwa : WA t q.Name (theAnswer q) = .ok t2) :
    ∃ tr, askQ WA fuel qi q t = .ok t2 tr ∧ traceBinds tr = [(q.Name, theAnswer q)] := by
  obtain ⟨a, ca, hp0, hconv, hval, -⟩ := hq
  have hans : theAnswer q = ca := by
    rw [theAnswer.eq_def, hp0]
    simp only [hconv]
  obtain ⟨trc, hcp, htrc⟩ := convertPhase_firstTry qi q.Prompt q.Convert fuel a ca hconv
  obtain ⟨trv, hvp, htrv⟩ := validatePhase_firstTry qi q.Prompt q.Validate fuel ca 1 0 a hval
  rw [hans] at hwa
  have hstep : askQ WA fuel qi q t = .ok t2
      (Event.promptCall qi (.ok a) :: (trc ++ trv ++
        [.cleanupCall qi a (q.Prompt.cleanup a), .bindCall qi q.Name ca none])) := by
    rw [askQ.eq_def, hp0]
    simp only [hcp, hvp, hwa]
  refine ⟨_, hstep, ?_⟩
  rw [hans]
  rcases htrc with rfl | rfl <;> rcases htrv with rfl | rfl <;> rfl

/-- `askList` under all-first-try questions and a total binder: the final
container is the fold of the bind function over the answers, and the
successful binds are exactly one per question, in order. -/
lemma askList_firstTry [Inhabited α] (WA : τ → String → α → Except ε τ)
    (wf : τ → String → α → τ) (fuel : Nat)
    (hWA : ∀ t n v, WA t n v = .ok (wf t n v)) :
    ∀ (qs : List (Question α ε)) (qi : Nat) (t0 : τ),
      (∀ q ∈ qs, firstTryOK q) →
      ∃ tr, askList WA fuel qs qi t0 =
          .ok (qs.foldl (fun t q => wf t q.Name (theAnswer q)) t0) tr ∧
        traceBinds tr = qs.map (fun q => (q.Name, theAnswer q)) := by
  intro qs
  induction qs with
  | nil =>
    intro qi t0 _
    exact ⟨[], rfl, rfl⟩
  | cons q rest ih =>
    intro qi t0 hqs
    obtain ⟨tr1, hstep, hbinds1⟩ := askQ_firstTry WA fuel qi q t0
      (wf t0 q.Name (theAnswer q)) (hqs q (List.mem_cons_self q rest))
      (hWA t0 q.Name (theAnswer q))
    obtain ⟨tr2, hrest, hbinds2⟩ := ih (qi + 1) (wf t0 q.Name (theAnswer q))
      (fun q2 hq2 => hqs q2 (List.mem_cons_of_mem q hq2))
    refine ⟨tr1 ++ tr2, ?_, ?_⟩
    · rw [askList, hstep]
      dsimp only
      rw [hrest]
      rfl
    · rw [traceBinds_append, hbinds1, hbinds2]
      rfl

/-- C1: for a non-empty question list and a non-nil container, if every
question's `Prompt()`, conversion, validation and `Cleanup` succeed at the
first attempt and the Answer Binder always succeeds, `ask` returns no
error, and the successful bind calls are exactly one per question, in
question-list order, each binding that question's (possibly converted)
answer; the final container is the fold of the binder over those pairs. -/
theorem ask_all_first_try [Inhabited α] (WA : τ → String → α → Except ε τ)
    (wf : τ → String → α → τ) (fuel : Nat) (qs : List (Question α ε)) (t0 : τ)
    (hne : qs ≠ [])
    (hWA : ∀ t n v, WA t n v = .ok (wf t n v))
    (hqs : ∀ q ∈ qs, firstTryOK q) :
    ∃ tr, Ask WA fuel qs (some t0) =
        .ok (qs.foldl (fun t q => wf t q.Name (theAnswer q)) t0) tr ∧
      traceBinds tr = qs.map (fun q => (q.Name, theAnswer q)) := by
  have := hne
  exact askList_firstTry WA wf fuel hWA qs 0 t0 hqs

/-- Questions for the C1 witness: a plain one named `a` and one named `b`
whose converter adds 1 and whose validator accepts everything. -/
def exQa : Question Nat Nat :=
  { Name := "a", Prompt := exPrompt, Validate := none, Convert := none }

/-- Second question for the C1 witness. -/
def exQb : Question Nat Nat :=
  { Name := "b", Prompt := exPrompt, Validate := some (fun _ _ => none),
    Convert := some (fun _ a => .ok (a + 1)) }

/-- Witness for C1: the concrete two-question run returns the container
holding `("a", 10)` then `("b", 11)`, one bind per question in order. -/
theorem ask_all_first_try_witness :
    ∃ tr, Ask exWrite 1 [exQa, exQb] (some ([] : List (String × Nat))) =
        .ok [("a", 10), ("b", 11)] tr ∧
      traceBinds tr = [("a", 10), ("b", 11)] :=
  ask_all_first_try exWrite (fun t n v => t ++ [(n, v)]) 1 [exQa, exQb] []
    (List.cons_ne_nil _ _)
    (fun _ _ _ => rfl)
    (by
      intro q hq
      simp only [List.mem_cons, List.not_mem_nil, or_false] at hq
      rcases hq with rfl | rfl
      · exact ⟨10, 10, rfl, rfl, rfl, fun _ => rfl⟩
      · exact ⟨10, 11, rfl, rfl, rfl, fun _ => rfl⟩)

/-- An aborted question step never records a successful bind: the abort
happened at the initial prompt, inside a retry loop, or at the bind call
itself (whose failure is recorded with its error). -/
lemma askQ_abort_traceBinds (WA : τ → String → α → Except ε τ) (fuel qi : Nat)
    (q : Question α ε) (t : τ) (e : ε) (trq : List (Event α ε))
    (h : askQ WA fuel qi q t = .abort e trq) :
    traceBinds trq = [] := by
  rcases hq : q.Prompt.prompt 0 with e0 | ans
  · rw [askQ.eq_def, hq] at h
    cases h
    rfl
  · obtain ⟨-, -, hcb, -, -⟩ := convertPhase_trace_spec qi q.Prompt q.Convert fuel ans
    rcases hcp : convertPhase qi q.Prompt q.Convert fuel ans with
      ⟨a1, c1, pi, ei, trc⟩ | ⟨e2, trc⟩ | ⟨trc⟩ <;> rw [hcp] at hcb <;>
      simp only [LoopRes.trace] at hcb
    · obtain ⟨-, -, hvb, -, -, -⟩ :=
        validatePhase_trace_spec qi q.Prompt q.Validate fuel c1 pi ei a1
      rcases hvp : validatePhase qi q.Prompt q.Validate fuel c1 pi ei a1 with
        ⟨a2, c2, pi2, ei2, trv⟩ | ⟨e2, trv⟩ | ⟨trv⟩ <;> rw [hvp] at hvb <;>
        simp only [LoopRes.trace] at hvb
      · rcases hwa : WA t q.Name c2 with e3 | t2
        · rw [askQ.eq_def, hq] at h
          simp only [hcp, hvp, hwa] at h
          cases h
          simp only [traceBinds, List.filterMap_cons, List.filterMap_append] at hcb hvb ⊢
          simp [hcb, hvb]
        · rw [askQ.eq_def, hq] at h
          simp only [hcp, hvp, hwa] at h
          cases h
      · rw [askQ.eq_def, hq] at h
        simp only [hcp, hvp] at h
        cases h
        simp only [traceBinds, List.filterMap_cons, List.filterMap_append] at hcb hvb ⊢
        simp [hcb, hvb]
      · rw [askQ.eq_def, hq] at h
        simp only [hcp, hvp] at h
        cases h
    · rw [askQ.eq_def, hq] at h
      simp only [hcp] at h
      cases h
      simp only [traceBinds, List.filterMap_cons] at hcb ⊢
      simp [hcb]
    · rw [askQ.eq_def, hq] at h
      simp only [hcp] at h
      cases h

/-- C2: if processing of questions `1..k-1` succeeds (container `t1`,
trace `tr1`) and question `k` aborts with error `e` — an initial-prompt
failure, an `Error()` failure inside a retry loop, a re-prompt failure, or
a bind failure — then `ask` on the whole list returns that exact error
with the container still `t1` (the earlier answers remain bound and no
later bind happens: the successful binds of the whole run are those of
`tr1`), and no event — in particular no `Prompt()` call — is ever recorded
for questions `k+1..n`. -/
theorem ask_abort_on_failure (WA : τ → String → α → Except ε τ) (fuel : Nat)
    (qs1 qs2 : List (Question α ε)) (q : Question α ε) (t0 t1 : τ)
    (tr1 trq : List (Event α ε)) (e : ε)
    (h1 : askList WA fuel qs1 0 t0 = .ok t1 tr1)
    (h2 : askQ WA fuel qs1.length q t1 = .abort e trq) :
    Ask WA fuel (qs1 ++ q :: qs2) (some t0) = .err (.user e) (some t1) (tr1 ++ trq) ∧
    (∀ ev ∈ tr1 ++ trq, Event.qIdx ev ≤ qs1.length) ∧
    traceBinds (tr1 ++ trq) = traceBinds tr1 := by
  refine ⟨?_, ?_, ?_⟩
  · show askList WA fuel (qs1 ++ q :: qs2) 0 t0 = _
    rw [askList_append WA fuel qs1 (q :: qs2) 0 t0, h1]
    dsimp only
    rw [askList]
    simp only [Nat.zero_add]
    rw [h2]
    rfl
  · intro ev hev
    rcases List.mem_append.mp hev with hin | hin
    · have hb := askList_qIdx WA fuel qs1 0 t0 ev (by rw [h1]; exact hin)
      omega
    · have hb := (askQ_trace_spec WA fuel qs1.length q t1).1 ev (by rw [h2]; exact hin)
      omega
  · rw [traceBinds_append, askQ_abort_traceBinds WA fuel qs1.length q t1 e trq h2]
    simp

/-- A concrete question whose prompt always fails with error 7, for the
C2 witness. -/
def exQbad : Question Nat Nat :=
  { Name := "c", Prompt := exPromptBad, Validate := none, Convert := none }

/-- Witness for C2: in the concrete three-question run the second
question's prompt fails with error 7; `ask` returns exactly error 7, the
container still holds the first answer, the third question is never
prompted, and the recorded successful binds are the first question's. -/
theorem ask_abort_on_failure_witness :
    Ask exWrite 1 ([exQa] ++ exQbad :: [exQa]) (some ([] : List (String × Nat))) =
      .err (.user 7) (some [("a", 10)])
        ([.promptCall 0 (.ok 10), .cleanupCall 0 10 none, .bindCall 0 "a" 10 none] ++
          [.promptCall 1 (.error 7)]) ∧
    traceBinds
        ([Event.promptCall 0 (Except.ok 10), .cleanupCall 0 10 none,
          .bindCall 0 "a" 10 none] ++ [Event.promptCall 1 (Except.error (7 : Nat))]) =
      traceBinds [Event.promptCall 0 (Except.ok 10), .cleanupCall 0 10 none,
        .bindCall 0 "a" 10 (none : Option Nat)] :=
  ⟨(ask_abort_on_failure exWrite 1 [exQa] [exQa] exQbad [] [("a", 10)]
      [.promptCall 0 (.ok 10), .cleanupCall 0 10 none, .bindCall 0 "a" 10 none]
      [.promptCall 1 (.error 7)] 7 (by decide) (by decide)).1,
    (ask_abort_on_failure exWrite 1 [exQa] [exQa] exQbad [] [("a", 10)]
      [.promptCall 0 (.ok 10), .cleanupCall 0 10 none, .bindCall 0 "a" 10 none]
      [.promptCall 1 (.error 7)] 7 (by decide) (by decide)).2.2⟩

/-! ## Tracking the last raw value (for the `Cleanup` contract) -/

lemma lastRawVal_append (xs ys : List (Event α ε)) :
    lastRawVal (xs ++ ys) = (lastRawVal ys).or (lastRawVal xs) := by
  simp [lastRawVal, List.filterMap_append, List.getLast?_append]

lemma lastRawVal_append_of_none (xs ys : List (Event α ε)) (h : lastRawVal ys = none) :
    lastRawVal (xs ++ ys) = lastRawVal xs := by
  rw [lastRawVal_append, h]
  rfl

lemma lastRawVal_append_of_some (xs ys : List (Event α ε)) (a : α)
    (h : lastRawVal ys = some a) : lastRawVal (xs ++ ys) = some a := by
  rw [lastRawVal_append, h]
  rfl

/-- Through a completed conversion loop, the raw-answer component is the
last raw value prompted (or the initial one if no re-prompt happened). -/
lemma convertLoop_lastRaw (qi : Nat) (p : PromptI α ε) (conv : Nat → α → Except ε α) :
    ∀ (fuel pi ei ci : Nat) (ans a c : α) (pi2 ei2 : Nat) (tr : List (Event α ε)),
      convertLoop qi p conv fuel pi ei ci ans = .ok a c pi2 ei2 tr →
      ∀ pre, lastRawVal pre = some ans → lastRawVal (pre ++ tr) = some a := by
  intro fuel
  induction fuel with
  | zero =>
    intro pi ei ci ans a c pi2 ei2 tr h pre hpre
    rcases hc : conv ci ans with e1 | cAns
    · rw [convertLoop_eq_fuelOut qi p pi ei hc] at h
      simp at h
    · rw [convertLoop_eq_ok qi p 0 pi ei hc] at h
      cases h
      rw [lastRawVal_append_of_none]
      · exact hpre
      · rfl
  | succ f ih =>
    intro pi ei ci ans a c pi2 ei2 tr h pre hpre
    rcases hc : conv ci ans with e1 | cAns
    · rcases he : p.error ei e1 with _ | e2
      · rcases hp : p.prompt pi with e3 | ans2
        · rw [convertLoop_eq_promptAbort qi p f pi ei hc he hp] at h
          simp at h
        · rw [convertLoop_eq_step qi p f pi ei hc he hp] at h
          rcases h2 : convertLoop qi p conv f (pi + 1) (ei + 1) (ci + 1) ans2 with
            ⟨a1, c1, pi1, ei1, tr1⟩ | ⟨e4, tr1⟩ | ⟨tr1⟩ <;> rw [h2] at h <;>
            simp only [LoopRes.prepend] at h
          · cases h
            have hpre2 : lastRawVal (pre ++ [.convertCall qi ans (.error e1),
                .errorCall qi e1 none, .promptCall qi (.ok ans2)]) = some ans2 := by
              rw [lastRawVal_append_of_some]
              rfl
            rw [← List.append_assoc]
            exact ih (pi + 1) (ei + 1) (ci + 1) ans2 a c pi2 ei2 tr1 h2 _ hpre2
          · cases h
          · cases h
      · rw [convertLoop_eq_errAbort qi p f pi ei hc he] at h
        simp at h
    · rw [convertLoop_eq_ok qi p (f + 1) pi ei hc] at h
      cases h
      rw [lastRawVal_append_of_none]
      · exact hpre
      · rfl

/-- Through a completed validation loop, the raw-answer component is the
last raw value prompted (or the initial one if no re-prompt happened). -/
lemma validateLoop_lastRaw (qi : Nat) (p : PromptI α ε) (val : Nat → α → Option ε)
    (cAns : α) :
    ∀ (fuel pi ei vi : Nat) (ans a c : α) (pi2 ei2 : Nat) (tr : List (Event α ε)),
      validateLoop qi p val cAns fuel pi ei vi ans = .ok a c pi2 ei2 tr →
      ∀ pre, lastRawVal pre = some ans → lastRawVal (pre ++ tr) = some a := by
  intro fuel
  induction fuel with
  | zero =>
    intro pi ei vi ans a c pi2 ei2 tr h pre hpre
    rcases hv : val vi cAns with _ | e1
    · rw [validateLoop_eq_ok qi p 0 pi ei ans hv] at h
      cases h
      rw [lastRawVal_append_of_none]
      · exact hpre
      · rfl
    · rw [validateLoop_eq_fuelOut qi p pi ei ans hv] at h
      simp at h
  | succ f ih =>
    intro pi ei vi ans a c pi2 ei2 tr h pre hpre
    rcases hv : val vi cAns with _ | e1
    · rw [validateLoop_eq_ok qi p (f + 1) pi ei ans hv] at h
      cases h
      rw [lastRawVal_append_of_none]
      · exact hpre
      · rfl
    · rcases he : p.error ei e1 with _ | e2
      · rcases hp : p.prompt pi with e3 | ans2
        · rw [validateLoop_eq_promptAbort qi p f pi ei ans hv he hp] at h
          simp at h
        · rw [validateLoop_eq_step qi p f pi ei ans hv he hp] at h
          rcases h2 : validateLoop qi p val cAns f (pi + 1) (ei + 1) (vi + 1) ans2 with
            ⟨a1, c1, pi1, ei1, tr1⟩ | ⟨e4, tr1⟩ | ⟨tr1⟩ <;> rw [h2] at h <;>
            simp only [LoopRes.prepend] at h
          · cases h
            have hpre2 : lastRawVal (pre ++ [.validateCall qi cAns (some e1),
                .errorCall qi e1 none, .promptCall qi (.ok ans2)]) = some ans2 := by
              rw [lastRawVal_append_of_some]
              rfl
            rw [← List.append_assoc]
            exact ih (pi + 1) (ei + 1) (vi + 1) ans2 a c pi2 ei2 tr1 h2 _ hpre2
          · cases h
          · cases h
      · rw [validateLoop_eq_errAbort qi p f pi ei ans hv he] at h
        simp at h

/-- Phase version of `convertLoop_lastRaw`. -/
lemma convertPhase_lastRaw (qi : Nat) (p : PromptI α ε)
    (c : Option (Nat → α → Except ε α)) (fuel : Nat) (ans a1 c1 : α) (pi ei : Nat)
    (trc : List (Event α ε))
    (h : convertPhase qi p c fuel ans = .ok a1 c1 pi ei trc) :
    ∀ pre, lastRawVal pre = some ans → lastRawVal (pre ++ trc) = some a1 := by
  cases c with
  | none =>
    simp only [convertPhase] at h
    cases h
    intro pre hpre
    simpa using hpre
  | some conv => exact convertLoop_lastRaw qi p conv fuel 1 0 0 ans a1 c1 pi ei trc h

/-- Phase version of `validateLoop_lastRaw`. -/
lemma validatePhase_lastRaw (qi : Nat) (p : PromptI α ε)
    (v : Option (Nat → α → Option ε)) (fuel : Nat) (cAns : α) (pi ei : Nat)
    (ans a2 c2 : α) (pi2 ei2 : Nat) (trv : List (Event α ε))
    (h : validatePhase qi p v fuel cAns pi ei ans = .ok a2 c2 pi2 ei2 trv) :
    ∀ pre, lastRawVal pre = some ans → lastRawVal (pre ++ trv) = some a2 := by
  cases v with
  | none =>
    simp only [validatePhase] at h
    cases h
    intro pre hpre
    simpa using hpre
  | some val => exact validateLoop_lastRaw qi p val cAns fuel pi ei 0 ans a2 c2 pi2 ei2 trv h

/-- The `Cleanup` contract of one question step: whenever the step
completes (the answer is bound, or binding itself fails), `Cleanup` was
called exactly once, with the last raw value obtained from `Prompt()`;
when the step aborts earlier, `Cleanup` was never called. -/
lemma askQ_cleanup_spec (WA : τ → String → α → Except ε τ) (fuel qi : Nat)
    (q : Question α ε) (t : τ) :
    (∀ t2 tr, askQ WA fuel qi q t = .ok t2 tr →
      ∃ a2, cleanupCalls tr = [(a2, q.Prompt.cleanup a2)] ∧ lastRawVal tr = some a2) ∧
    (∀ e tr, askQ WA fuel qi q t = .abort e tr →
      cleanupCalls tr = [] ∨
      ∃ a2, cleanupCalls tr = [(a2, q.Prompt.cleanup a2)] ∧ lastRawVal tr = some a2) := by
  rcases hq : q.Prompt.prompt 0 with e0 | ans
  · constructor
    · intro t2 tr h
      rw [askQ.eq_def, hq] at h
      cases h
    · intro e tr h
      rw [askQ.eq_def, hq] at h
      cases h
      left
      rfl
  · obtain ⟨-, hccc, -, -, -⟩ := convertPhase_trace_spec qi q.Prompt q.Convert fuel ans
    rcases hcp : convertPhase qi q.Prompt q.Convert fuel ans with
      ⟨a1, c1, pi, ei, trc⟩ | ⟨e2, trc⟩ | ⟨trc⟩ <;> rw [hcp] at hccc <;>
      simp only [LoopRes.trace] at hccc
    · have hlastc : lastRawVal ([Event.promptCall qi (.ok ans)] ++ trc) = some a1 :=
        convertPhase_lastRaw qi q.Prompt q.Convert fuel ans a1 c1 pi ei trc hcp
          [Event.promptCall qi (.ok ans)] rfl
      obtain ⟨-, hccv, -, -, -, -⟩ :=
        validatePhase_trace_spec qi q.Prompt q.Validate fuel c1 pi ei a1
      rcases hvp : validatePhase qi q.Prompt q.Validate fuel c1 pi ei a1 with
        ⟨a2, c2, pi2, ei2, trv⟩ | ⟨e2, trv⟩ | ⟨trv⟩ <;> rw [hvp] at hccv <;>
        simp only [LoopRes.trace] at hccv
      · have hlastv : lastRawVal (([Event.promptCall qi (.ok ans)] ++ trc) ++ trv) =
            some a2 :=
          validatePhase_lastRaw qi q.Prompt q.Validate fuel c1 pi ei a1 a2 c2 pi2 ei2 trv
            hvp ([Event.promptCall qi (.ok ans)] ++ trc) hlastc
        have hckey : ∀ r : Option ε, cleanupCalls (Event.promptCall qi (.ok ans) ::
            (trc ++ trv ++ [.cleanupCall qi a2 (q.Prompt.cleanup a2),
              .bindCall qi q.Name c2 r])) = [(a2, q.Prompt.cleanup a2)] := by
          intro r
          simp only [cleanupCalls, List.filterMap_cons, List.filterMap_append] at hccc hccv ⊢
          simp [hccc, hccv]
        have hlkey : ∀ r : Option ε, lastRawVal (Event.promptCall qi (.ok ans) ::
            (trc ++ trv ++ [.cleanupCall qi a2 (q.Prompt.cleanup a2),
              .bindCall qi q.Name c2 r])) = some a2 := by
          intro r
          have htail : lastRawVal ([Event.cleanupCall qi a2 (q.Prompt.cleanup a2),
              Event.bindCall qi q.Name c2 r] : List (Event α ε)) = none := rfl
          rw [show (Event.promptCall qi (Except.ok ans) ::
              (trc ++ trv ++ [Event.cleanupCall qi a2 (q.Prompt.cleanup a2),
                Event.bindCall qi q.Name c2 r])) =
              (([Event.promptCall qi (Except.ok ans)] ++ trc) ++ trv) ++
                [Event.cleanupCall qi a2 (q.Prompt.cleanup a2),
                  Event.bindCall qi q.Name c2 r] from by simp [List.append_assoc]]
          rw [lastRawVal_append_of_none _ _ htail]
          exact hlastv
        rcases hwa : WA t q.Name c2 with e3 | t2
        · constructor
          · intro t3 tr h
            rw [askQ.eq_def, hq] at h
            simp only [hcp, hvp, hwa] at h
            cases h
          · intro e tr h
            rw [askQ.eq_def, hq] at h
            simp only [hcp, hvp, hwa] at h
            cases h
            exact Or.inr ⟨a2, hckey _, hlkey _⟩
        · constructor
          · intro t3 tr h
            rw [askQ.eq_def, hq] at h
            simp only [hcp, hvp, hwa] at h
            cases h
            exact ⟨a2, hckey _, hlkey _⟩
          · intro e tr h
            rw [askQ.eq_def, hq] at h
            simp only [hcp, hvp, hwa] at h
            cases h
      · constructor
        · intro t3 tr h
          rw [askQ.eq_def, hq] at h
          simp only [hcp, hvp] at h
          cases h
        · intro e tr h
          rw [askQ.eq_def, hq] at h
          simp only [hcp, hvp] at h
          cases h
          left
          simp only [cleanupCalls, List.filterMap_cons, List.filterMap_append] at hccc hccv ⊢
          simp [hccc, hccv]
      · constructor
        · intro t3 tr h
          rw [askQ.eq_def, hq] at h
          simp only [hcp, hvp] at h
          cases h
        · intro e tr h
          rw [askQ.eq_def, hq] at h
          simp only [hcp, hvp] at h
          cases h
    · constructor
      · intro t3 tr h
        rw [askQ.eq_def, hq] at h
        simp only [hcp] at h
        cases h
      · intro e tr h
        rw [askQ.eq_def, hq] at h
        simp only [hcp] at h
        cases h
        left
        simp only [cleanupCalls, List.filterMap_cons] at hccc ⊢
        simp [hccc]
    · constructor
      · intro t3 tr h
        rw [askQ.eq_def, hq] at h
        simp only [hcp] at h
        cases h
      · intro e tr h
        rw [askQ.eq_def, hq] at h
        simp only [hcp] at h
        cases h

/-! ## `Cleanup` never influences the control flow -/

/-- The conversion loop never consults the prompt's `Cleanup`
implementation. -/
lemma convertLoop_cleanup_irrelevant (qi : Nat) (p : PromptI α ε) (c0 : α → Option ε)
    (conv : Nat → α → Except ε α) :
    ∀ (fuel pi ei ci : Nat) (ans : α),
      convertLoop qi ⟨p.prompt, p.error, c0⟩ conv fuel pi ei ci ans =
        convertLoop qi p conv fuel pi ei ci ans := by
  intro fuel
  induction fuel with
  | zero =>
    intro pi ei ci ans
    rcases hc : conv ci ans with e1 | cAns
    · rw [convertLoop_eq_fuelOut qi ⟨p.prompt, p.error, c0⟩ pi ei hc,
        convertLoop_eq_fuelOut qi p pi ei hc]
    · rw [convertLoop_eq_ok qi ⟨p.prompt, p.error, c0⟩ 0 pi ei hc,
        convertLoop_eq_ok qi p 0 pi ei hc]
  | succ f ih =>
    intro pi ei ci ans
    rcases hc : conv ci ans with e1 | cAns
    · rcases he : p.error ei e1 with _ | e2
      · rcases hp : p.prompt pi with e3 | ans2
        · rw [convertLoop_eq_promptAbort qi ⟨p.prompt, p.error, c0⟩ f pi ei hc he hp,
            convertLoop_eq_promptAbort qi p f pi ei hc he hp]
        · rw [convertLoop_eq_step qi ⟨p.prompt, p.error, c0⟩ f pi ei hc he hp,
            convertLoop_eq_step qi p f pi ei hc he hp, ih]
      · rw [convertLoop_eq_errAbort qi ⟨p.prompt, p.error, c0⟩ f pi ei hc he,
          convertLoop_eq_errAbort qi p f pi ei hc he]
    · rw [convertLoop_eq_ok qi ⟨p.prompt, p.error, c0⟩ (f + 1) pi ei hc,
        convertLoop_eq_ok qi p (f + 1) pi ei hc]

/-- The validation loop never consults the prompt's `Cleanup`
implementation. -/
lemma validateLoop_cleanup_irrelevant (qi : Nat) (p : PromptI α ε) (c0 : α → Option ε)
    (val : Nat → α → Option ε) (cAns : α) :
    ∀ (fuel pi ei vi : Nat) (ans : α),
      validateLoop qi ⟨p.prompt, p.error, c0⟩ val cAns fuel pi ei vi ans =
        validateLoop qi p val cAns fuel pi ei vi ans := by
  intro fuel
  induction fuel with
  | zero =>
    intro pi ei vi ans
    rcases hv : val vi cAns with _ | e1
    · rw [validateLoop_eq_ok qi ⟨p.prompt, p.error, c0⟩ 0 pi ei ans hv,
        validateLoop_eq_ok qi p 0 pi ei ans hv]
    · rw [validateLoop_eq_fuelOut qi ⟨p.prompt, p.error, c0⟩ pi ei ans hv,
        validateLoop_eq_fuelOut qi p pi ei ans hv]
  | succ f ih =>
    intro pi ei vi ans
    rcases hv : val vi cAns with _ | e1
    · rw [validateLoop_eq_ok qi ⟨p.prompt, p.error, c0⟩ (f + 1) pi ei ans hv,
        validateLoop_eq_ok qi p (f + 1) pi ei ans hv]
    · rcases he : p.error ei e1 with _ | e2
      · rcases hp : p.prompt pi with e3 | ans2
        · rw [validateLoop_eq_promptAbort qi ⟨p.prompt, p.error, c0⟩ f pi ei ans hv he hp,
            validateLoop_eq_promptAbort qi p f pi ei ans hv he hp]
        · rw [validateLoop_eq_step qi ⟨p.prompt, p.error, c0⟩ f pi ei ans hv he hp,
            validateLoop_eq_step qi p f pi ei ans hv he hp, ih]
      · rw [validateLoop_eq_errAbort qi ⟨p.prompt, p.error, c0⟩ f pi ei ans hv he,
          validateLoop_eq_errAbort qi p f pi ei ans hv he]

/-- The conversion phase never consults `Cleanup`. -/
lemma convertPhase_cleanup_irrelevant (qi : Nat) (p : PromptI α ε) (c0 : α → Option ε)
    (copt : Option (Nat → α → Except ε α)) (fuel : Nat) (ans : α) :
    convertPhase qi ⟨p.prompt, p.error, c0⟩ copt fuel ans =
      convertPhase qi p copt fuel ans := by
  cases copt with
  | none => rfl
  | some conv => exact convertLoop_cleanup_irrelevant qi p c0 conv fuel 1 0 0 ans

/-- The validation phase never consults `Cleanup`. -/
lemma validatePhase_cleanup_irrelevant (qi : Nat) (p : PromptI α ε) (c0 : α → Option ε)
    (vopt : Option (Nat → α → Option ε)) (fuel : Nat) (cAns : α) (pi ei : Nat) (ans : α) :
    validatePhase qi ⟨p.prompt, p.error, c0⟩ vopt fuel cAns pi ei ans =
      validatePhase qi p vopt fuel cAns pi ei ans := by
  cases vopt with
  | none => rfl
  | some val => exact validateLoop_cleanup_irrelevant qi p c0 val cAns fuel pi ei 0 ans

/-- Up to the recorded `Cleanup` results, a question step is unchanged by
replacing the prompt's `Cleanup` implementation. -/
lemma askQ_setCleanup (WA : τ → String → α → Except ε τ) (fuel qi : Nat)
    (q : Question α ε) (t : τ) (c0 : α → Option ε) :
    (askQ WA fuel qi (setCleanup c0 q) t).scrub = (askQ WA fuel qi q t).scrub := by
  rw [askQ.eq_def, askQ.eq_def]
  simp only [setCleanup]
  simp only [convertPhase_cleanup_irrelevant, validatePhase_cleanup_irrelevant]
  rcases hq : q.Prompt.prompt 0 with e0 | ans
  · rfl
  · rcases hcp : convertPhase qi q.Prompt q.Convert fuel ans with
      ⟨a1, c1, pi, ei, trc⟩ | ⟨e2, trc⟩ | ⟨trc⟩ <;> simp only [hcp] <;> try rfl
    rcases hvp : validatePhase qi q.Prompt q.Validate fuel c1 pi ei a1 with
      ⟨a2, c2, pi2, ei2, trv⟩ | ⟨e2, trv⟩ | ⟨trv⟩ <;> simp only [hvp] <;> try rfl
    rcases hwa : WA t q.Name c2 with e3 | t2 <;> simp only [hwa] <;>
      simp [StepRes.scrub, Event.scrubCleanup, List.map_append]

lemma AskRes.scrub_prepend (es : List (Event α ε)) (r : AskRes τ α ε) :
    (r.prepend es).scrub = (r.scrub).prepend (es.map Event.scrubCleanup) := by
  cases r <;> simp [prepend, scrub, List.map_append]

/-- Up to the recorded `Cleanup` results, a whole `askList` run is
unchanged by replacing every question's `Cleanup` implementation. -/
lemma askList_setCleanup (WA : τ → String → α → Except ε τ) (fuel : Nat)
    (c0 : α → Option ε) :
    ∀ (qs : List (Question α ε)) (qi : Nat) (t : τ),
      (askList WA fuel (qs.map (setCleanup c0)) qi t).scrub =
        (askList WA fuel qs qi t).scrub := by
  intro qs
  induction qs with
  | nil => intro qi t; rfl
  | cons q rest ih =>
    intro qi t
    simp only [List.map_cons, askList]
    have hsc := askQ_setCleanup WA fuel qi q t c0
    rcases h1 : askQ WA fuel qi (setCleanup c0 q) t with ⟨t1, tr1⟩ | ⟨e1, tr1⟩ | ⟨tr1⟩ <;>
      rcases h2 : askQ WA fuel qi q t with ⟨t2, tr2⟩ | ⟨e2, tr2⟩ | ⟨tr2⟩ <;>
      rw [h1, h2] at hsc <;> simp only [StepRes.scrub] at hsc <;> try simp at hsc
    · obtain ⟨ht, htr⟩ := hsc
      subst ht
      rw [AskRes.scrub_prepend, AskRes.scrub_prepend, htr, ih]
    · obtain ⟨he, htr⟩ := hsc
      subst he
      first
      | exact congrArg (AskRes.err (AskError.user e2) (some t)) htr
      | (simp only [AskRes.scrub]; rw [htr])
    · first
      | exact hsc
      | exact congrArg (AskRes.fuelOut t) hsc
      | (simp only [AskRes.scrub]; rw [hsc])

/-- C8: the `Cleanup` contract.  First conjunct: whenever a question step
completes successfully (both retry loops have accepted a value and the
bind succeeded), `Cleanup` was called exactly once, and its argument is
the last raw value obtained from `Prompt()` (not the converted value).
Second conjunct: `Cleanup`'s returned error never becomes the return
value of `ask` — replacing every question's `Cleanup` implementation
changes nothing in `ask`'s outcome except the recorded `Cleanup` results
themselves (the `scrub` projection of the result is invariant). -/
theorem ask_cleanup_contract :
    (∀ (α ε τ : Type) (WA : τ → String → α → Except ε τ) (fuel qi : Nat)
        (q : Question α ε) (t t2 : τ) (tr : List (Event α ε)),
        askQ WA fuel qi q t = .ok t2 tr →
        ∃ a2, cleanupCalls tr = [(a2, q.Prompt.cleanup a2)] ∧ lastRawVal tr = some a2) ∧
    (∀ (α ε τ : Type) (WA : τ → String → α → Except ε τ) (fuel : Nat)
        (qs : List (Question α ε)) (t : Option τ) (c0 : α → Option ε),
        (Ask WA fuel (qs.map (setCleanup c0)) t).scrub = (Ask WA fuel qs t).scrub) := by
  constructor
  · intro α ε τ WA fuel qi q t t2 tr h
    exact (askQ_cleanup_spec WA fuel qi q t).1 t2 tr h
  · intro α ε τ WA fuel qs t c0
    cases t with
    | none => rfl
    | some t0 => exact askList_setCleanup WA fuel c0 qs 0 t0

/-- Witness for C8: a concrete successful one-question run; the theorem
yields its unique `Cleanup` call, whose argument 10 is the last raw
value. -/
theorem ask_cleanup_contract_witness :
    askQ exWrite 1 0 exQa ([] : List (String × Nat)) = .ok [("a", 10)]
      [.promptCall 0 (.ok 10), .cleanupCall 0 10 none, .bindCall 0 "a" 10 none] ∧
    ∃ a2, cleanupCalls [Event.promptCall 0 (Except.ok 10), Event.cleanupCall 0 10 none,
        Event.bindCall 0 "a" 10 (none : Option Nat)] = [(a2, exQa.Prompt.cleanup a2)] ∧
      lastRawVal [Event.promptCall 0 (Except.ok 10), Event.cleanupCall 0 10 none,
        Event.bindCall 0 "a" 10 (none : Option Nat)] = some a2 :=
  ⟨by decide,
    ask_cleanup_contract.1 Nat Nat (List (String × Nat)) exWrite 1 0 exQa [] [("a", 10)]
      [.promptCall 0 (.ok 10), .cleanupCall 0 10 none, .bindCall 0 "a" 10 none]
      (by decide)⟩

end Survey
